import Mathlib

/-!
Verification of the Kurdistan Calendar API core.

This file embeds, in Lean, the calendar conversion / validation engine
(`src/api/utils/date_utils.py`) and the holiday aggregation pipeline
(`src/api/routes/holidays.py`) of the repository, and proves (or refutes)
the specification claims about them.

Conventions of the embedding:
* Python `datetime.date` values are modelled by `GDate` (year/month/day as
  integers) together with the proleptic-Gregorian ordinal `toOrd`, which is
  exactly Python's `date.toordinal` formula.  Subtraction of dates
  (`(a - b).days`) is modelled by `daysBetween` (difference of ordinals);
  `base + timedelta(n days)` is modelled by `dateAddInt` which steps the
  calendar one day at a time (the same linear sequence of days Python walks).
* `datetime(year, month, day)` construction raises `ValueError` outside the
  year range `1..9999`; the embedding performs that check (`mkDatetime`)
  exactly where the source constructs a `datetime`.
* Fallible Python code is modelled with `Except PyExn`; a bare dictionary
  lookup failure is `PyExn.keyError`, a raised `ValueError` carrying the
  "Invalid Kurdish month name" message is `PyExn.invalidMonthName`, and date
  range failures of the `datetime` constructor / `timedelta` addition are
  `PyExn.yearOutOfRange` / `PyExn.overflowError`.
-/

namespace KurdAPI

/-! ## Proleptic Gregorian date arithmetic (model of Python `datetime.date`) -/

/-- A Gregorian calendar date, fields as plain integers. -/
structure GDate where
  y : Int
  m : Int
  d : Int
deriving DecidableEq, Repr

/-- Gregorian leap year predicate (as used by `datetime`). -/
def isLeap (y : Int) : Bool :=
  y % 4 == 0 && (y % 100 != 0 || y % 400 == 0)

/-- 1 in a leap year, 0 otherwise. -/
def leapOff (y : Int) : Int := if isLeap y then 1 else 0

/-- Length of Gregorian month `m` of year `y`. -/
def monthLen (y m : Int) : Int :=
  if m = 2 then 28 + leapOff y
  else if m = 4 ∨ m = 6 ∨ m = 9 ∨ m = 11 then 30
  else 31

/-- Number of days in the months strictly before month `m` of year `y`. -/
def cumDays (y m : Int) : Int :=
  if m ≤ 1 then 0
  else if m = 2 then 31
  else if m = 3 then 59 + leapOff y
  else if m = 4 then 90 + leapOff y
  else if m = 5 then 120 + leapOff y
  else if m = 6 then 151 + leapOff y
  else if m = 7 then 181 + leapOff y
  else if m = 8 then 212 + leapOff y
  else if m = 9 then 243 + leapOff y
  else if m = 10 then 273 + leapOff y
  else if m = 11 then 304 + leapOff y
  else 334 + leapOff y

/-- Days in year `y`. -/
def daysInYear (y : Int) : Int := 365 + leapOff y

/-- Number of days strictly before January 1 of year `y`, counting from the
proleptic day 0 = December 31 of year 0 (Python `toordinal` convention). -/
def daysBefore (y : Int) : Int :=
  365 * (y - 1) + (y - 1) / 4 - (y - 1) / 100 + (y - 1) / 400

/-- Python `date.toordinal`: day number of a date. -/
def toOrd (x : GDate) : Int :=
  daysBefore x.y + cumDays x.y x.m + x.d

/-- Python `(a - b).days` for two dates. -/
def daysBetween (a b : GDate) : Int := toOrd a - toOrd b

/-- The date is an actual calendar date (any year). -/
def validG (x : GDate) : Prop :=
  1 ≤ x.m ∧ x.m ≤ 12 ∧ 1 ≤ x.d ∧ x.d ≤ monthLen x.y x.m

instance (x : GDate) : Decidable (validG x) := by unfold validG; infer_instance

/-- The next calendar day. -/
def succD (x : GDate) : GDate :=
  if x.d < monthLen x.y x.m then ⟨x.y, x.m, x.d + 1⟩
  else if x.m < 12 then ⟨x.y, x.m + 1, 1⟩
  else ⟨x.y + 1, 1, 1⟩

/-- The previous calendar day. -/
def predD (x : GDate) : GDate :=
  if 1 < x.d then ⟨x.y, x.m, x.d - 1⟩
  else if 1 < x.m then ⟨x.y, x.m - 1, monthLen x.y (x.m - 1)⟩
  else ⟨x.y - 1, 12, 31⟩

/-- Add `n` days by walking the calendar forward. -/
def addDays (x : GDate) : Nat → GDate
  | 0 => x
  | n + 1 => addDays (succD x) n

/-- Subtract `n` days by walking the calendar backward. -/
def subDays (x : GDate) : Nat → GDate
  | 0 => x
  | n + 1 => subDays (predD x) n

/-- Model of Python date-plus-timedelta for a signed day count `n`
(without the overflow check; the callers perform it). -/
def dateAddInt (x : GDate) (n : Int) : GDate :=
  if 0 ≤ n then addDays x n.toNat else subDays x (-n).toNat

/-- Python date comparison `a <= b` (equivalent to ordinal comparison). -/
def dateLE (a b : GDate) : Prop := toOrd a ≤ toOrd b

instance (a b : GDate) : Decidable (dateLE a b) := by unfold dateLE; infer_instance

/-! ### Arithmetic lemmas about the date model -/

theorem daysBefore_succ (y : Int) : daysBefore (y + 1) = daysBefore y + daysInYear y := by
  unfold daysBefore daysInYear leapOff isLeap
  simp only [Bool.and_eq_true, Bool.or_eq_true, beq_iff_eq, bne_iff_ne]
  split <;> omega

theorem daysInYear_pos (y : Int) : 365 ≤ daysInYear y := by
  unfold daysInYear leapOff; split <;> omega

theorem daysBefore_add_le {y y' : Int} (h : y < y') :
    daysBefore y + daysInYear y ≤ daysBefore y' := by
  refine Int.le_induction (P := fun n => daysBefore y + daysInYear y ≤ daysBefore n)
    (m := y + 1) ?_ ?_ y' h
  · simp only
    rw [daysBefore_succ]
  · intro n hn ih
    have h1 := daysBefore_succ n
    have h2 := daysInYear_pos n
    omega

theorem leapOff_bd (y : Int) : 0 ≤ leapOff y ∧ leapOff y ≤ 1 := by
  unfold leapOff; split <;> omega

theorem cumDays_nonneg {y m : Int} (h1 : 1 ≤ m) (h2 : m ≤ 12) : 0 ≤ cumDays y m := by
  have := leapOff_bd y
  interval_cases m <;> simp only [cumDays] <;> norm_num <;> omega

theorem monthLen_pos (y m : Int) : 28 ≤ monthLen y m := by
  have := leapOff_bd y
  unfold monthLen
  split_ifs <;> omega

theorem cumDays_step {y m : Int} (h1 : 1 ≤ m) (h2 : m ≤ 11) :
    cumDays y (m + 1) = cumDays y m + monthLen y m := by
  have := leapOff_bd y
  interval_cases m <;> simp only [cumDays, monthLen] <;> norm_num <;> omega

theorem cumDays_top {y m : Int} (h1 : 1 ≤ m) (h2 : m ≤ 12) :
    cumDays y m + monthLen y m ≤ daysInYear y := by
  have := leapOff_bd y
  unfold daysInYear
  interval_cases m <;> simp only [cumDays, monthLen] <;> norm_num <;> omega

theorem cumDays_mono_lt {y a b : Int} (h1 : 1 ≤ a) (h2 : a < b) (h3 : b ≤ 12) :
    cumDays y a + monthLen y a ≤ cumDays y b := by
  have := leapOff_bd y
  have ha2 : a ≤ 12 := by omega
  interval_cases a <;> interval_cases b <;>
    simp only [cumDays, monthLen] <;> norm_num <;> omega

/-- Bounds of `toOrd` over one year. -/
theorem toOrd_bounds {x : GDate} (h : validG x) :
    daysBefore x.y + 1 ≤ toOrd x ∧ toOrd x ≤ daysBefore x.y + daysInYear x.y := by
  obtain ⟨h1, h2, h3, h4⟩ := h
  have hc := cumDays_nonneg (y := x.y) h1 h2
  have ht := cumDays_top (y := x.y) h1 h2
  unfold toOrd
  constructor <;> omega

/-- `toOrd` is strictly monotone in the lexicographic date order. -/
theorem toOrd_lt {a b : GDate} (ha : validG a) (hb : validG b)
    (h : a.y < b.y ∨ (a.y = b.y ∧ (a.m < b.m ∨ (a.m = b.m ∧ a.d < b.d)))) :
    toOrd a < toOrd b := by
  rcases h with hy | ⟨hy, h⟩
  · have h1 := (toOrd_bounds ha).2
    have h2 := (toOrd_bounds hb).1
    have h3 := daysBefore_add_le hy
    omega
  · obtain ⟨ha1, ha2, ha3, ha4⟩ := ha
    obtain ⟨hb1, hb2, hb3, hb4⟩ := hb
    rcases h with hm | ⟨hm, hd⟩
    · have h1 := cumDays_mono_lt (y := b.y) ha1 hm hb2
      rw [hy] at ha4
      unfold toOrd
      rw [hy]
      omega
    · unfold toOrd; rw [hy, hm]; omega

/-- `toOrd` is injective on valid dates. -/
theorem toOrd_inj {a b : GDate} (ha : validG a) (hb : validG b)
    (h : toOrd a = toOrd b) : a = b := by
  by_contra hne
  have tri : a.y < b.y ∨ (a.y = b.y ∧ (a.m < b.m ∨ (a.m = b.m ∧ a.d < b.d))) ∨
      (b.y < a.y ∨ (b.y = a.y ∧ (b.m < a.m ∨ (b.m = a.m ∧ b.d < a.d)))) := by
    rcases a with ⟨ay, am, ad⟩; rcases b with ⟨by_, bm, bd⟩
    simp only [GDate.mk.injEq] at hne
    simp only []
    omega
  rcases tri with h1 | h1 | h1
  · exact absurd h (ne_of_lt (toOrd_lt ha hb (Or.inl h1)))
  · exact absurd h (ne_of_lt (toOrd_lt ha hb (Or.inr h1)))
  · exact absurd h.symm (ne_of_lt (toOrd_lt hb ha h1))

theorem validG_mk {y m d : Int} (h1 : 1 ≤ m) (h2 : m ≤ 12) (h3 : 1 ≤ d)
    (h4 : d ≤ monthLen y m) : validG ⟨y, m, d⟩ :=
  ⟨h1, h2, h3, h4⟩

theorem succD_valid {x : GDate} (h : validG x) : validG (succD x) := by
  obtain ⟨h1, h2, h3, h4⟩ := h
  have m1 := monthLen_pos x.y (x.m + 1)
  have m2 := monthLen_pos (x.y + 1) 1
  unfold succD
  split
  · exact validG_mk h1 h2 (by omega) (by omega)
  · split
    · exact validG_mk (by omega) (by omega) (by omega) (by omega)
    · exact validG_mk (by omega) (by omega) (by omega) (by omega)

theorem toOrd_succD {x : GDate} (h : validG x) : toOrd (succD x) = toOrd x + 1 := by
  obtain ⟨h1, h2, h3, h4⟩ := h
  unfold succD
  split
  · unfold toOrd; simp only; omega
  · split
    · next hlt hm =>
      have hd : x.d = monthLen x.y x.m := by omega
      have hstep := cumDays_step (y := x.y) h1 (by omega)
      unfold toOrd; simp only
      omega
    · next hlt hm =>
      have hm12 : x.m = 12 := by omega
      have hML : monthLen x.y 12 = 31 := by
        simp only [monthLen]; norm_num
      have hcum : cumDays x.y 12 = 334 + leapOff x.y := by
        simp only [cumDays]; norm_num
      have hc1 : cumDays (x.y + 1) 1 = 0 := by
        simp only [cumDays]; norm_num
      have hDB := daysBefore_succ x.y
      unfold daysInYear at hDB
      rw [hm12] at h4 hlt
      rw [hML] at h4 hlt
      unfold toOrd
      simp only
      rw [hm12, hcum]
      omega

theorem addDays_valid {x : GDate} (h : validG x) (n : Nat) : validG (addDays x n) := by
  induction n generalizing x with
  | zero => exact h
  | succ k ih => exact ih (succD_valid h)

theorem toOrd_addDays {x : GDate} (h : validG x) (n : Nat) :
    toOrd (addDays x n) = toOrd x + n := by
  induction n generalizing x with
  | zero => simp [addDays]
  | succ k ih =>
    have := ih (succD_valid h)
    unfold addDays
    rw [this, toOrd_succD h]
    push_cast
    ring

/-- Walking forward from a valid date by exactly the ordinal difference
reaches the target date.  This is the workhorse lemma connecting the
`(a - b).days` subtraction with `b + timedelta(days)` addition. -/
theorem addDays_ord_diff {a b : GDate} (ha : validG a) (hb : validG b)
    (h : toOrd a ≤ toOrd b) : addDays a (toOrd b - toOrd a).toNat = b := by
  have hval := addDays_valid ha (toOrd b - toOrd a).toNat
  have hord := toOrd_addDays ha (toOrd b - toOrd a).toNat
  have : toOrd (addDays a (toOrd b - toOrd a).toNat) = toOrd b := by
    rw [hord]; omega
  exact toOrd_inj hval hb this

/-- If a valid date's ordinal lies within year `c`'s ordinal span,
its year is `c`. -/
theorem year_of_ord_range {x : GDate} (hx : validG x) {c : Int}
    (h1 : daysBefore c + 1 ≤ toOrd x) (h2 : toOrd x ≤ daysBefore c + daysInYear c) :
    x.y = c := by
  have hb := toOrd_bounds hx
  by_contra hne
  rcases Int.lt_or_lt_of_ne hne with hlt | hlt
  · have := daysBefore_add_le hlt
    have hbd := (toOrd_bounds hx).2
    omega
  · have := daysBefore_add_le hlt
    omega

/-! ## The Kurdish calendar engine (model of `src/api/utils/date_utils.py`) -/

instance {e a : Type} [DecidableEq e] [DecidableEq a] : DecidableEq (Except e a) := fun x z =>
  match x, z with
  | .ok v, .ok w =>
    if h : v = w then isTrue (by rw [h]) else isFalse (fun hc => by cases hc; exact h rfl)
  | .error v, .error w =>
    if h : v = w then isTrue (by rw [h]) else isFalse (fun hc => by cases hc; exact h rfl)
  | .ok _, .error _ => isFalse (fun hc => by cases hc)
  | .error _, .ok _ => isFalse (fun hc => by cases hc)

/-- Python exception outcomes distinguished by the embedding.
`invalidMonthName` / `invalidMonthNumber` are the two `ValueError`s raised
explicitly by the source; `keyError` is a failing dictionary subscript;
`yearOutOfRange` is the `ValueError` of the `datetime` constructor outside
years 1..9999; `overflowError` is the `OverflowError` of date + timedelta
leaving the representable range. -/
inductive PyExn where
  | invalidMonthName
  | invalidMonthNumber
  | keyError
  | yearOutOfRange
  | overflowError
  | invalidIsoFormat
  | invalidDateRange
deriving DecidableEq, Repr

/-- `datetime(year, month, day)` for the in-range month/day constants used by
the source: only the year range can fail. -/
def mkDatetime (y m d : Int) : Except PyExn GDate :=
  if 1 ≤ y ∧ y ≤ 9999 then .ok ⟨y, m, d⟩ else .error .yearOutOfRange

/-- `KURDISH_MONTHS`, in dictionary insertion order. -/
def KURDISH_MONTHS : List (Int × String) :=
  [(1, "Xakelew"), (2, "Gullan"), (3, "Cozerdan"), (4, "Pûşper"),
   (5, "Gelawêj"), (6, "Xermanan"), (7, "Rezber"), (8, "Gelarêzan"),
   (9, "Sermawez"), (10, "Befranbar"), (11, "Rêbendan"), (12, "Reşeme")]

/-- Dictionary subscript `KURDISH_MONTHS[n]` (`none` = `KeyError`). -/
def kurdishMonthName (n : Int) : Option String :=
  (KURDISH_MONTHS.find? (fun p => p.1 == n)).map (fun p => p.2)

/-- `next((k for k, v in KURDISH_MONTHS.items() if v == month), None)`. -/
def monthIndexOf (s : String) : Option Int :=
  (KURDISH_MONTHS.find? (fun p => p.2 == s)).map (fun p => p.1)

/-- `MONTH_START_DAYS`. -/
def MONTH_START_DAYS : List (String × Int × Int) :=
  [("Xakelew", 3, 21), ("Gullan", 4, 21), ("Cozerdan", 5, 22), ("Pûşper", 6, 22),
   ("Gelawêj", 7, 23), ("Xermanan", 8, 23), ("Rezber", 9, 23), ("Gelarêzan", 10, 23),
   ("Sermawez", 11, 22), ("Befranbar", 12, 22), ("Rêbendan", 1, 21), ("Reşeme", 2, 20)]

/-- Dictionary subscript `MONTH_START_DAYS[name]`. -/
def monthStartDays (s : String) : Option (Int × Int) :=
  (MONTH_START_DAYS.find? (fun p => p.1 == s)).map (fun p => p.2)

/-- `KURDISH_NUMERALS` lookup: the Kurdish-Arabic glyph for an ASCII digit. -/
def KURDISH_NUMERALS (c : Char) : Option Char :=
  if c = '0' then some '٠' else if c = '1' then some '١'
  else if c = '2' then some '٢' else if c = '3' then some '٣'
  else if c = '4' then some '٤' else if c = '5' then some '٥'
  else if c = '6' then some '٦' else if c = '7' then some '٧'
  else if c = '8' then some '٨' else if c = '9' then some '٩'
  else none

/-- `KURDISH_NUMERALS.get(d, d)`. -/
def kuGet (c : Char) : Char := (KURDISH_NUMERALS c).getD c

/-- Decimal digits of a natural number (fuel-based so that it reduces in the
kernel); `natDigitsAux (n+1) n` is `str(n)`. -/
def natDigitsAux : Nat → Nat → List Char
  | 0, _ => []
  | fuel + 1, n =>
    if n < 10 then [Char.ofNat (48 + n)]
    else natDigitsAux fuel (n / 10) ++ [Char.ofNat (48 + n % 10)]

/-- Python `str()` of an integer. -/
def intStr (n : Int) : String :=
  if n < 0 then String.mk ('-' :: natDigitsAux ((-n).toNat + 1) (-n).toNat)
  else String.mk (natDigitsAux (n.toNat + 1) n.toNat)

/-- `''.join(KURDISH_NUMERALS.get(d, d) for d in s)`. -/
def kuNum (s : String) : String := String.mk (s.data.map kuGet)

/-- The f-string `f"{day}ی {month_name} {year}"` with both numbers passed
through the numeral substitution. -/
def renderKu (day : Int) (name : String) (year : Int) : String :=
  kuNum (intStr day) ++ "ی " ++ name ++ " " ++ kuNum (intStr year)

/-- Result dictionary of `gregorian_to_kurdish`. -/
structure KDate where
  year : Int
  month : String
  day : Int
  full_date : String
deriving DecidableEq, Repr

/-- Python tuple comparison `(m, d) >= (M, D)`. -/
def pairGe (m d M D : Int) : Bool := M < m || (m == M && D ≤ d)

/-- Python tuple comparison `(m, d) < (M, D)`. -/
def pairLt (m d M D : Int) : Bool := m < M || (m == M && d < D)

/-- One standard branch of `gregorian_to_kurdish`: anchor `(am, ad)` in year
`ay`, producing Kurdish month `mname` of Kurdish year `ky`. -/
def g2kBranch (g : GDate) (ay am ad : Int) (mname : String) (ky : Int) :
    Except PyExn KDate :=
  match mkDatetime ay am ad with
  | .error e => .error e
  | .ok base =>
    let day := daysBetween g base + 1
    .ok ⟨ky, mname, day, renderKu day mname ky⟩

/-- The `gregorian_date.month == 3 and gregorian_date.day < 21` block of
`gregorian_to_kurdish` (special handling for Reşeme in March). -/
def g2kMarch (g : GDate) : Except PyExn KDate :=
  let ky := g.y + 700 - 1
  let mname := "Reşeme"
  let dayE : Except PyExn Int :=
    if g.y = 2023 ∧ g.m = 3 ∧ g.d = 5 then .ok 14
    else if g.y = 2023 ∧ g.m = 3 ∧ g.d = 10 then .ok 19
    else if g.y = 2023 ∧ g.m = 3 ∧ g.d = 16 then .ok 25
    else if g.y = 2024 ∧ g.m = 3 ∧ g.d = 6 then .ok 15
    else if g.y = 2024 ∧ g.m = 3 ∧ g.d = 11 then .ok 20
    else if g.y = 2026 ∧ g.m = 3 ∧ g.d = 5 then .ok 14
    else if g.y = 2026 ∧ g.m = 3 ∧ g.d = 10 then .ok 19
    else if g.y = 2026 ∧ g.m = 3 ∧ g.d = 16 then .ok 25
    else
      match mkDatetime g.y 2 20 with
      | .error e => .error e
      | .ok base => .ok (daysBetween g base + 1)
  match dayE with
  | .error e => .error e
  | .ok day => .ok ⟨ky, mname, day, renderKu day mname ky⟩

/-- The `greg_month_day >= (3, 21)` chain of `gregorian_to_kurdish`. -/
def g2kStd (g : GDate) : Except PyExn KDate :=
  if pairGe g.m g.d 3 21 && pairLt g.m g.d 4 21 then
    g2kBranch g g.y 3 21 "Xakelew" (g.y + 700)
  else if pairGe g.m g.d 4 21 && pairLt g.m g.d 5 22 then
    g2kBranch g g.y 4 21 "Gullan" (g.y + 700)
  else if pairGe g.m g.d 5 22 && pairLt g.m g.d 6 22 then
    g2kBranch g g.y 5 22 "Cozerdan" (g.y + 700)
  else if pairGe g.m g.d 6 22 && pairLt g.m g.d 7 23 then
    g2kBranch g g.y 6 22 "Pûşper" (g.y + 700)
  else if pairGe g.m g.d 7 23 && pairLt g.m g.d 8 23 then
    g2kBranch g g.y 7 23 "Gelawêj" (g.y + 700)
  else if pairGe g.m g.d 8 23 && pairLt g.m g.d 9 23 then
    g2kBranch g g.y 8 23 "Xermanan" (g.y + 700)
  else if pairGe g.m g.d 9 23 && pairLt g.m g.d 10 23 then
    g2kBranch g g.y 9 23 "Rezber" (g.y + 700)
  else if pairGe g.m g.d 10 23 && pairLt g.m g.d 11 22 then
    g2kBranch g g.y 10 23 "Gelarêzan" (g.y + 700)
  else if pairGe g.m g.d 11 22 && pairLt g.m g.d 12 22 then
    g2kBranch g g.y 11 22 "Sermawez" (g.y + 700)
  else if pairGe g.m g.d 12 22 then
    g2kBranch g g.y 12 22 "Befranbar" (g.y + 700)
  else
    .ok ⟨g.y + 700, "", 0, renderKu 0 "" (g.y + 700)⟩

/-- The January 1 .. March 20 chain of `gregorian_to_kurdish` (previous
Kurdish year). -/
def g2kWrap (g : GDate) : Except PyExn KDate :=
  let ky := g.y + 700 - 1
  if pairGe g.m g.d 1 1 && pairLt g.m g.d 1 21 then
    g2kBranch g (g.y - 1) 12 22 "Befranbar" ky
  else if pairGe g.m g.d 1 21 && pairLt g.m g.d 2 20 then
    g2kBranch g g.y 1 21 "Rêbendan" ky
  else if pairGe g.m g.d 2 20 && pairLt g.m g.d 3 21 then
    g2kBranch g g.y 2 20 "Reşeme" ky
  else
    .ok ⟨ky, "", 0, renderKu 0 "" ky⟩

/-- `gregorian_to_kurdish` (the input is already a `datetime`; the
`fromisoformat` string branch is a caller-side concern). -/
def gregorian_to_kurdish (g : GDate) : Except PyExn KDate :=
  if g.m = 3 ∧ g.d < 21 then
    g2kMarch g
  else if g.y = 2023 ∧ g.m = 7 ∧ g.d = 25 then
    .ok ⟨2723, "Gelawêj", 3, "٣ی Gelawêj ٢٧٢٣"⟩
  else if g.y = 2024 ∧ g.m = 6 ∧ g.d = 1 then
    .ok ⟨2724, "Cozerdan", 11, "١١ی Cozerdan ٢٧٢٤"⟩
  else if pairGe g.m g.d 3 21 then
    g2kStd g
  else
    g2kWrap g

/-- A Kurdish month given either as a name or as a number
(`Union[str, int]` of the source). -/
inductive MonthRef where
  | byName (s : String)
  | byIndex (n : Int)
deriving DecidableEq, Repr

/-- The body of `kurdish_to_gregorian` after the month reference has been
resolved to the number `month_number`. -/
def k2gCore (kurdish_year month_number kurdish_day : Int) : Except PyExn GDate :=
  let gregorian_year :=
    if month_number ≤ 9 then kurdish_year - 700
    else if month_number ≥ 11 ∨ (month_number = 10 ∧ kurdish_day > 9) then
      kurdish_year - 700 + 1
    else kurdish_year - 700
  match kurdishMonthName month_number with
  | none => .error .keyError
  | some month_name =>
    match monthStartDays month_name with
    | none => .error .keyError
    | some md =>
      let baseE :=
        if 10 ≤ month_number ∧ month_number ≤ 12 ∧
            kurdish_year - 700 < gregorian_year then
          mkDatetime (gregorian_year - 1) md.1 md.2
        else
          mkDatetime gregorian_year md.1 md.2
      match baseE with
      | .error e => .error e
      | .ok base =>
        let res := dateAddInt base (kurdish_day - 1)
        if 1 ≤ res.y ∧ res.y ≤ 9999 then .ok res else .error .overflowError

/-- `kurdish_to_gregorian`.  Returns the resulting Gregorian date (the source
renders it with `strftime("%Y-%m-%d")`). -/
def kurdish_to_gregorian (kurdish_year : Int) (kurdish_month : MonthRef)
    (kurdish_day : Int) : Except PyExn GDate :=
  match kurdish_month with
  | .byName s =>
    match monthIndexOf s with
    | some k => k2gCore kurdish_year k kurdish_day
    | none => .error .invalidMonthName
  | .byIndex n => k2gCore kurdish_year n kurdish_day

/-- The round-trip portion of `is_valid_kurdish_date` (its `try` block):
convert to Gregorian with the resolved month number, render/parse the ISO
string (which fails for years below 1000, where `strftime("%Y")` does not
zero-pad and `fromisoformat` rejects the result), convert back, and compare.
`morig` is the original month argument, used by the final month comparison
(`converted_back["month"] == kurdish_month`; for an integer argument that
Python comparison is `str == int`, i.e. `False`). -/
def roundTripCheck (kurdish_year : Int) (month_number : Int) (morig : MonthRef)
    (kurdish_day : Int) : Bool :=
  match kurdish_to_gregorian kurdish_year (.byIndex month_number) kurdish_day with
  | .error _ => false
  | .ok g =>
    if g.y < 1000 then false
    else
      match gregorian_to_kurdish g with
      | .error _ => false
      | .ok cb =>
        match kurdishMonthName month_number with
        | none => false
        | some nm =>
          decide (cb.year = kurdish_year) && decide (cb.day = kurdish_day) &&
            (cb.month == nm ||
              (match morig with
               | .byName s => cb.month == s
               | .byIndex _ => false))

/-- `is_valid_kurdish_date`. -/
def is_valid_kurdish_date (kurdish_year : Int) (kurdish_month : MonthRef)
    (kurdish_day : Int) : Bool :=
  if kurdish_year = 2698 ∧ kurdish_month = .byName "Rêbendan" ∧ kurdish_day = 26 then
    true
  else if kurdish_year = 2702 ∧ kurdish_month = .byName "Reşeme" ∧ kurdish_day = 28 then
    true
  else if kurdish_year = 2704 ∧ kurdish_month = .byName "Rêbendan" ∧ kurdish_day = 10 then
    true
  else if kurdish_month = .byName "Reşeme" ∧
      kurdish_day ∈ ([6, 10, 14, 15, 16, 17, 19, 20, 23, 24, 25, 26] : List Int) then
    true
  else if kurdish_month = .byName "Rêbendan" ∧
      kurdish_day ∈ ([2, 10, 12, 26] : List Int) then
    true
  else
    match kurdish_month with
    | .byName s =>
      match monthIndexOf s with
      | none => false
      | some month_number =>
        if kurdish_day < 1 ∨ kurdish_day > 31 then false
        else roundTripCheck kurdish_year month_number kurdish_month kurdish_day
    | .byIndex n =>
      if n < 1 ∨ n > 12 then false
      else if kurdish_day < 1 ∨ kurdish_day > 31 then false
      else roundTripCheck kurdish_year n kurdish_month kurdish_day

/-- `format_kurdish_date`. -/
def format_kurdish_date (day : Int) (month : MonthRef) (year : Int) :
    Except PyExn String :=
  match month with
  | .byIndex n =>
    if n < 1 ∨ n > 12 then throw .invalidMonthNumber
    else
      match kurdishMonthName n with
      | some nm => pure (renderKu day nm year)
      | none => throw .keyError
  | .byName s => pure (renderKu day s year)

/-! ## Holiday aggregation (model of `src/api/routes/holidays.py`)

A holiday record is modelled with its filter-relevant fields; an `Option`
field is `none` when the JSON key is absent.  The pass-through payload keys
(`kurdish_date`, `image`) are carried unchanged by the endpoints and play no
role in any filtering, deduplication or sorting, so they are not modelled. -/

structure Record where
  date : Option String
  type : Option String
  region : Option String
  isHoliday : Option Bool
  event : Option (List (String × String))
  note : Option (List (String × String))
deriving DecidableEq, Repr

/-- The dedup key
`f"{h['date']}_{h.get('type', 'unknown')}_{h.get('region', 'unknown')}"`;
`none` when `h['date']` raises `KeyError` (the record is then skipped). -/
def dedupKey (h : Record) : Option String :=
  h.date.map (fun d => d ++ "_" ++ h.type.getD "unknown" ++ "_" ++ h.region.getD "unknown")

/-- The shared duplicate-removal loop: `seen` is the `processed_dates` set
(a list of already-seen keys), records without a date are skipped. -/
def dedupeGo (seen : List String) : List Record → List Record
  | [] => []
  | h :: rest =>
    match dedupKey h with
    | none => dedupeGo seen rest
    | some k =>
      if k ∈ seen then dedupeGo seen rest
      else h :: dedupeGo (k :: seen) rest

/-- Duplicate removal starting from an empty `processed_dates` set.  The
source threads one set through consecutive per-source loops, which is the
same computation as one pass over the concatenation of the sources. -/
def dedupe (l : List Record) : List Record := dedupeGo [] l

/-- Python `str.lower()` (ASCII range; all region/type tags are ASCII). -/
def pyLower (s : String) : String := String.mk (s.data.map Char.toLower)

/-- The region predicate of the endpoints:
`'region' in h and (h["region"].lower() == region_value or h["region"].lower() == "all")`
where `region_value` is the lowercased filter value. -/
def regionPass (region_value : String) (h : Record) : Bool :=
  match h.region with
  | none => false
  | some r => pyLower r == region_value || pyLower r == "all"

/-- `if region: holidays = [h for h in holidays if ...]`. -/
def filterByRegion (region : Option String) (hs : List Record) : List Record :=
  match region with
  | none => hs
  | some rv => hs.filter (regionPass (pyLower rv))

/-- `if type: ... 'type' in h and h.get("type") == type_value`. -/
def filterByType (t : Option String) (hs : List Record) : List Record :=
  match t with
  | none => hs
  | some tv => hs.filter (fun h => h.type == some tv)

/-- `if is_holiday is not None: ... 'isHoliday' in h and h["isHoliday"] == is_holiday`. -/
def filterByHoliday (b : Option Bool) (hs : List Record) : List Record :=
  match b with
  | none => hs
  | some v => hs.filter (fun h => h.isHoliday == some v)

/-- Digits-only string to number. -/
def digitsToNat (cs : List Char) : Option Nat :=
  if cs ≠ [] ∧ cs.all Char.isDigit then
    some (cs.foldl (fun a c => a * 10 + (c.toNat - 48)) 0)
  else none

/-- `datetime.fromisoformat` restricted to the canonical zero-padded
`YYYY-MM-DD` form in which all stored record dates are written
(`none` = `ValueError`). -/
def parseISO (s : String) : Option GDate :=
  match s.data.splitOn '-' with
  | [a, b, c] =>
    if a.length = 4 ∧ b.length = 2 ∧ c.length = 2 then
      match digitsToNat a, digitsToNat b, digitsToNat c with
      | some yv, some mv, some dv =>
        if 1 ≤ (yv : Int) ∧ validG ⟨yv, mv, dv⟩ then some ⟨yv, mv, dv⟩ else none
      | _, _, _ => none
    else none
  | _ => none

/-- Decimal digits of `n` left-padded with zeros to width `w`. -/
def padNat (w n : Nat) : List Char :=
  let ds := natDigitsAux (n + 1) n
  List.replicate (w - ds.length) '0' ++ ds

/-- Canonical `YYYY-MM-DD` rendering of a date (used to model the raw date
string a caller passes to the single-date endpoint). -/
def isoString (x : GDate) : String :=
  String.mk (padNat 4 x.y.toNat ++ '-' :: (padNat 2 x.m.toNat ++ '-' :: padNat 2 x.d.toNat))

/-- The in-range date filter of the range endpoint:
`from_date_obj <= datetime.fromisoformat(h["date"]).date() <= to_date_obj`,
skipping records without a date, and failing (like the comprehension) on the
first unparseable date string. -/
def filterDateRange (fromD toD : GDate) : List Record → Except PyExn (List Record)
  | [] => .ok []
  | h :: rest =>
    match h.date with
    | none =>
      filterDateRange fromD toD rest
    | some s =>
      match parseISO s with
      | none => .error .invalidIsoFormat
      | some d =>
        match filterDateRange fromD toD rest with
        | .error e => .error e
        | .ok tail =>
          if dateLE fromD d ∧ dateLE d toD then .ok (h :: tail) else .ok tail

/-- A localized response entry (`kurdish_date` and `image` pass-throughs
omitted, see above). -/
structure Entry where
  date : String
  isHoliday : Bool
  event : String
  note : Option String
  region : String
  type : Option String
deriving DecidableEq, Repr

/-- Python `dict.get` on a string-keyed mapping. -/
def lookupStr (l : List (String × String)) (k : String) : Option String :=
  (l.find? (fun p => p.1 == k)).map (fun p => p.2)

/-- Building one response entry; `none` when the record raises `KeyError`
on its required keys (`date`, `event`) and is skipped. -/
def projectRecord (lang : String) (h : Record) : Option Entry :=
  match h.date, h.event with
  | some d, some ev =>
    some ⟨d,
      h.isHoliday.getD false,
      ((lookupStr ev lang).orElse (fun _ => lookupStr ev "en")).getD "Unknown",
      (match h.note with
       | none => none
       | some nt =>
         match lookupStr nt lang with
         | some v => if v == "" then none else some v
         | none => none),
      h.region.getD "unknown",
      h.type⟩
  | _, _ => none

/-- The response-formatting loop shared by the endpoints. -/
def formatEntries (lang : String) (hs : List Record) : List Entry :=
  hs.filterMap (projectRecord lang)

/-- Sort key `lambda h: h["date"]` (every record reaching the sort has a
date). -/
def sortKey (h : Record) : String := h.date.getD ""

/-- Lexicographic comparison of strings as character lists (Python string
`<=`; on zero-padded ISO dates this is date order). -/
def charsLe : List Char → List Char → Bool
  | [], _ => true
  | _ :: _, [] => false
  | a :: as, b :: bs =>
    if a < b then true else if b < a then false else charsLe as bs

def strLeB (a b : String) : Bool := charsLe a.data b.data

/-- Stable insertion step for the date sort. -/
def orderedInsert (x : Record) : List Record → List Record
  | [] => [x]
  | y :: ys => if strLeB (sortKey x) (sortKey y) then x :: y :: ys else y :: orderedInsert x ys

/-- `range_holidays.sort(key=lambda h: h["date"])`: a stable ascending sort
by the date string (stable sorts by the same key agree, so this insertion
sort produces exactly the order Python produces). -/
def sortByDate : List Record → List Record
  | [] => []
  | x :: xs => orderedInsert x (sortByDate xs)

/-- `range(a, b + 1)` over the years to load. -/
def yearsFrom (a b : Int) : List Int :=
  (List.range ((b + 1 - a).toNat)).map (fun i => a + i)

/-- `GET /api/v1/holidays/{date}` (`get_holidays_by_date`), modelled from the
parsed request: `yearly` is the per-year repository, `historical` the
`historical.json` source, `date` the (already strptime-validated) query date
whose raw string is its canonical ISO form. -/
def get_holidays_by_date (yearly : Int → List Record) (historical : List Record)
    (date : GDate) (lang : String) (region type : Option String)
    (include_historical : Bool) : List Entry :=
  let holidays :=
    if date.y < 2023 then
      -- for very old dates, only check the historical file, and only
      -- when include_historical is set
      if include_historical then dedupe historical else []
    else
      dedupe (yearly date.y ++ (if include_historical then historical else []))
  let date_holidays := holidays.filter (fun h => h.date == some (isoString date))
  let date_holidays := filterByRegion region date_holidays
  let date_holidays := filterByType type date_holidays
  formatEntries lang date_holidays

/-- `GET /api/v1/holidays/range/{from_date}/{to_date}`
(`get_holidays_by_date_range`), modelled from the parsed request. -/
def get_holidays_by_date_range (yearly : Int → List Record) (historical : List Record)
    (from_date to_date : GDate) (lang : String) (region type : Option String)
    (is_holiday : Option Bool) (include_historical : Bool) :
    Except PyExn (List Entry) :=
  if toOrd to_date < toOrd from_date then .error .invalidDateRange
  else
    let start_year := from_date.y
    let end_year := to_date.y
    let holidays :=
      dedupe (((yearsFrom (max 2023 start_year) end_year).map yearly).flatten ++
        (if include_historical || decide (start_year < 2023) then historical else []))
    match filterDateRange from_date to_date holidays with
    | .error e => .error e
    | .ok range_holidays =>
      let range_holidays := filterByRegion region range_holidays
      let range_holidays := filterByType type range_holidays
      let range_holidays := filterByHoliday is_holiday range_holidays
      let sorted := sortByDate range_holidays
      let unique_holidays := dedupe sorted
      .ok (formatEntries lang unique_holidays)

/-! ### Properties of the deduplication and sorting helpers -/

theorem dedupeGo_sublist (seen : List String) (l : List Record) :
    (dedupeGo seen l).Sublist l := by
  induction l generalizing seen with
  | nil => simp [dedupeGo]
  | cons h rest ih =>
    cases hk : dedupKey h with
    | none =>
      simp only [dedupeGo, hk]
      exact (ih seen).trans (List.sublist_cons_self h rest)
    | some k =>
      simp only [dedupeGo, hk]
      split
      · exact (ih seen).trans (List.sublist_cons_self h rest)
      · exact List.Sublist.cons₂ h (ih (k :: seen))

theorem dedupe_sublist (l : List Record) : (dedupe l).Sublist l :=
  dedupeGo_sublist [] l

theorem dedupe_length_le (l : List Record) : (dedupe l).length ≤ l.length :=
  (dedupe_sublist l).length_le

theorem dedupeGo_mem_key {seen : List String} {l : List Record} {h : Record}
    (hm : h ∈ dedupeGo seen l) : ∃ k, dedupKey h = some k ∧ k ∉ seen := by
  induction l generalizing seen with
  | nil => simp [dedupeGo] at hm
  | cons h0 rest ih =>
    cases hk : dedupKey h0 with
    | none =>
      simp only [dedupeGo, hk] at hm
      exact ih hm
    | some k =>
      simp only [dedupeGo, hk] at hm
      by_cases hks : k ∈ seen
      · rw [if_pos hks] at hm
        exact ih hm
      · rw [if_neg hks] at hm
        rcases List.mem_cons.mp hm with rfl | hm2
        · exact ⟨k, hk, hks⟩
        · obtain ⟨k2, hk2, hk2s⟩ := ih hm2
          exact ⟨k2, hk2, fun hc => hk2s (List.mem_cons_of_mem _ hc)⟩

theorem dedupeGo_pairwise (seen : List String) (l : List Record) :
    List.Pairwise (fun a b => dedupKey a ≠ dedupKey b) (dedupeGo seen l) := by
  induction l generalizing seen with
  | nil => simp [dedupeGo]
  | cons h0 rest ih =>
    cases hk : dedupKey h0 with
    | none =>
      simp only [dedupeGo, hk]
      exact ih seen
    | some k =>
      simp only [dedupeGo, hk]
      split
      · exact ih seen
      · refine List.Pairwise.cons ?_ (ih (k :: seen))
        intro b hb
        obtain ⟨k2, hk2, hk2s⟩ := dedupeGo_mem_key hb
        rw [hk, hk2]
        intro hc
        cases hc
        exact hk2s (List.mem_cons_self _ _)

/-- A list whose records all have keys outside `seen`, pairwise distinct,
passes through the dedup loop unchanged. -/
theorem dedupeGo_id {seen : List String} {l : List Record}
    (h1 : ∀ h ∈ l, ∃ k, dedupKey h = some k ∧ k ∉ seen)
    (h2 : List.Pairwise (fun a b => dedupKey a ≠ dedupKey b) l) :
    dedupeGo seen l = l := by
  induction l generalizing seen with
  | nil => simp [dedupeGo]
  | cons h0 rest ih =>
    obtain ⟨k, hk, hks⟩ := h1 h0 (List.mem_cons_self _ _)
    simp only [dedupeGo, hk, if_neg hks]
    congr 1
    refine ih ?_ (List.Pairwise.of_cons h2)
    intro h hm
    obtain ⟨k2, hk2, hk2s⟩ := h1 h (List.mem_cons_of_mem _ hm)
    refine ⟨k2, hk2, ?_⟩
    intro hc
    rcases List.mem_cons.mp hc with rfl | hc2
    · have hne := (List.pairwise_cons.mp h2).1 h hm
      rw [hk, hk2] at hne
      exact hne rfl
    · exact hk2s hc2

theorem dedupe_idem (l : List Record) : dedupe (dedupe l) = dedupe l := by
  unfold dedupe
  refine dedupeGo_id ?_ (dedupeGo_pairwise [] l)
  intro h hm
  obtain ⟨k, hk, _⟩ := dedupeGo_mem_key hm
  exact ⟨k, hk, List.not_mem_nil k⟩

theorem orderedInsert_perm (x : Record) (l : List Record) :
    (orderedInsert x l).Perm (x :: l) := by
  induction l with
  | nil => simp [orderedInsert]
  | cons y ys ih =>
    unfold orderedInsert
    split
    · exact List.Perm.refl _
    · exact (List.Perm.cons y ih).trans (List.Perm.swap x y ys)

theorem sortByDate_perm (l : List Record) : (sortByDate l).Perm l := by
  induction l with
  | nil => simp [sortByDate]
  | cons x xs ih =>
    unfold sortByDate
    exact (orderedInsert_perm x (sortByDate xs)).trans (List.Perm.cons x ih)

/-! ## Helper lemmas for the claims -/

theorem renderOk_g2kBranch {g : GDate} {ay am ad : Int} {mname : String} {ky : Int}
    {k : KDate} (h : g2kBranch g ay am ad mname ky = .ok k) :
    k.full_date = renderKu k.day k.month k.year := by
  unfold g2kBranch at h
  split at h
  · exact Except.noConfusion h
  · injection h with h1
    subst h1
    rfl

theorem renderOk_g2kMarch {g : GDate} {k : KDate} (h : g2kMarch g = .ok k) :
    k.full_date = renderKu k.day k.month k.year := by
  unfold g2kMarch at h
  dsimp only at h
  split_ifs at h <;> (try dsimp only at h) <;>
    first
      | (injection h with h1; subst h1; rfl)
      | (split at h
         · exact Except.noConfusion h
         · injection h with h1; subst h1; rfl)

theorem renderOk_g2kStd {g : GDate} {k : KDate} (h : g2kStd g = .ok k) :
    k.full_date = renderKu k.day k.month k.year := by
  unfold g2kStd at h
  iterate 10 (all_goals (try split at h))
  all_goals
    first
      | (injection h with h1; subst h1; rfl)
      | (unfold g2kBranch at h
         split at h
         · exact Except.noConfusion h
         · injection h with h1; subst h1; rfl)

theorem renderOk_g2kWrap {g : GDate} {k : KDate} (h : g2kWrap g = .ok k) :
    k.full_date = renderKu k.day k.month k.year := by
  unfold g2kWrap at h
  dsimp only at h
  iterate 3 (all_goals (try split at h))
  all_goals
    first
      | (injection h with h1; subst h1; rfl)
      | (unfold g2kBranch at h
         split at h
         · exact Except.noConfusion h
         · injection h with h1; subst h1; rfl)

theorem isValid_whitelist_reseme (y : Int) {d : Int}
    (hd : d ∈ ([6, 10, 14, 15, 16, 17, 19, 20, 23, 24, 25, 26] : List Int)) :
    is_valid_kurdish_date y (.byName "Reşeme") d = true := by
  unfold is_valid_kurdish_date
  split_ifs with a1 a2 a3 a4 a5 a6 <;>
    first
      | rfl
      | exact absurd ⟨rfl, hd⟩ a4

theorem isValid_whitelist_rebendan (y : Int) {d : Int}
    (hd : d ∈ ([2, 10, 12, 26] : List Int)) :
    is_valid_kurdish_date y (.byName "Rêbendan") d = true := by
  unfold is_valid_kurdish_date
  split_ifs with a1 a2 a3 a4 a5 a6 <;>
    first
      | rfl
      | exact absurd ⟨rfl, hd⟩ a5

theorem isValid_byIndex (y n d : Int) :
    is_valid_kurdish_date y (.byIndex n) d =
      (if n < 1 ∨ n > 12 then false
       else if d < 1 ∨ d > 31 then false
       else roundTripCheck y n (.byIndex n) d) := by
  simp [is_valid_kurdish_date]

/-! ## The claims -/

/-- C5: whenever `gregorian_to_kurdish` succeeds with a Kurdish date `k`,
`format_kurdish_date` applied to `k`'s day, month name and year produces
exactly the `full_date` text embedded in `k` — including the two
override-table dates whose `full_date` is stored verbatim in the source and
the `Reşeme` March branch. -/
theorem claim_C5 (g : GDate) (k : KDate)
    (h : gregorian_to_kurdish g = .ok k) :
    format_kurdish_date k.day (.byName k.month) k.year = .ok k.full_date := by
  have hr : k.full_date = renderKu k.day k.month k.year := by
    unfold gregorian_to_kurdish at h
    split_ifs at h
    · exact renderOk_g2kMarch h
    · injection h with h1; subst h1; decide
    · injection h with h1; subst h1; decide
    · exact renderOk_g2kStd h
    · exact renderOk_g2kWrap h
  simp only [format_kurdish_date]
  rw [hr]
  rfl

theorem claim_C5_witness :
    gregorian_to_kurdish ⟨2024, 3, 21⟩ =
      .ok ⟨2724, "Xakelew", 1, "١ی Xakelew ٢٧٢٤"⟩ ∧
    format_kurdish_date 1 (.byName "Xakelew") 2724 = .ok "١ی Xakelew ٢٧٢٤" :=
  ⟨by rfl, claim_C5 ⟨2024, 3, 21⟩ ⟨2724, "Xakelew", 1, "١ی Xakelew ٢٧٢٤"⟩ (by rfl)⟩

/-- C6: first-occurrence deduplication by the
`(date, type-or-unknown, region-or-unknown)` key is idempotent, never grows
the list, and keeps the surviving records in their original relative order
(sublist). -/
theorem claim_C6 (R : List Record) :
    dedupe (dedupe R) = dedupe R ∧ (dedupe R).length ≤ R.length ∧
      (dedupe R).Sublist R :=
  ⟨dedupe_idem R, dedupe_length_le R, dedupe_sublist R⟩

/-- C8: a record passes the region filter iff it has a region whose
lowercased value equals the lowercased filter value or equals `"all"`. -/
theorem claim_C8 (R : List Record) (rf : String) (r : Record) :
    r ∈ filterByRegion (some rf) R ↔
      r ∈ R ∧ ∃ s, r.region = some s ∧
        (pyLower s = pyLower rf ∨ pyLower s = "all") := by
  unfold filterByRegion
  rw [List.mem_filter]
  constructor
  · rintro ⟨hm, hp⟩
    refine ⟨hm, ?_⟩
    unfold regionPass at hp
    rcases hr : r.region with _ | s
    · rw [hr] at hp
      exact absurd hp (by simp)
    · rw [hr] at hp
      simp only [Bool.or_eq_true, beq_iff_eq] at hp
      exact ⟨s, rfl, hp⟩
  · rintro ⟨hm, s, hs, hor⟩
    refine ⟨hm, ?_⟩
    unfold regionPass
    rw [hs]
    simp only [Bool.or_eq_true, beq_iff_eq]
    exact hor

theorem claim_C8_witness :
    (⟨some "2024-03-21", some "official", some "All", some true,
        some [("en", "x")], none⟩ : Record) ∈
      filterByRegion (some "bashur")
        [⟨some "2024-03-21", some "official", some "All", some true,
          some [("en", "x")], none⟩] :=
  (claim_C8 _ "bashur" _).mpr
    ⟨List.mem_singleton.mpr rfl, "All", rfl, Or.inr (by decide)⟩

set_option maxRecDepth 8000 in
/-- C9: both whitelisted triples validate, and for both of them the
round-trip consistency check itself fails, so the `true` verdict indeed comes
from the exact-triple whitelist alone. -/
theorem claim_C9 :
    is_valid_kurdish_date 2698 (.byName "Rêbendan") 26 = true ∧
    is_valid_kurdish_date 2702 (.byName "Reşeme") 28 = true ∧
    roundTripCheck 2698 11 (.byName "Rêbendan") 26 = false ∧
    roundTripCheck 2702 12 (.byName "Reşeme") 28 = false :=
  ⟨by rfl, by rfl, by rfl, by rfl⟩

set_option maxRecDepth 8000 in
/-- C10: the Reşeme/Rêbendan day whitelists accept their listed days for
every Kurdish year when the month is passed by name; a month passed by index
is judged only by the 1..12 / 1..31 bounds and the round-trip test; and the
two forms disagree on a concrete date (year 2724, Reşeme day 6). -/
theorem claim_C10 :
    (∀ y : Int, ∀ d ∈ ([6, 10, 14, 15, 16, 17, 19, 20, 23, 24, 25, 26] : List Int),
        is_valid_kurdish_date y (.byName "Reşeme") d = true) ∧
    (∀ y : Int, ∀ d ∈ ([2, 10, 12, 26] : List Int),
        is_valid_kurdish_date y (.byName "Rêbendan") d = true) ∧
    (∀ y n d : Int,
        is_valid_kurdish_date y (.byIndex n) d =
          (if n < 1 ∨ n > 12 then false
           else if d < 1 ∨ d > 31 then false
           else roundTripCheck y n (.byIndex n) d)) ∧
    is_valid_kurdish_date 2724 (.byName "Reşeme") 6 = true ∧
    is_valid_kurdish_date 2724 (.byIndex 12) 6 = false :=
  ⟨fun y _ hd => isValid_whitelist_reseme y hd,
   fun y _ hd => isValid_whitelist_rebendan y hd,
   isValid_byIndex,
   isValid_whitelist_reseme 2724 (by decide),
   by rfl⟩

theorem claim_C10_witness :
    (6 : Int) ∈ ([6, 10, 14, 15, 16, 17, 19, 20, 23, 24, 25, 26] : List Int) ∧
    is_valid_kurdish_date 5 (.byName "Reşeme") 6 = true :=
  ⟨by decide, claim_C10.1 5 6 (by decide)⟩

/-! ### Evaluation lemmas for `kurdish_to_gregorian` -/

theorem daysBefore_mono_le {a b : Int} (h : a ≤ b) : daysBefore a ≤ daysBefore b := by
  rcases lt_or_eq_of_le h with hlt | rfl
  · have h1 := daysBefore_add_le hlt
    have h2 := daysInYear_pos a
    omega
  · exact le_refl _

theorem year_ge_of_ord {x : GDate} {c : Int} (hv : validG x)
    (h : daysBefore c + 1 ≤ toOrd x) : c ≤ x.y := by
  by_contra hc
  push_neg at hc
  have h1 := (toOrd_bounds hv).2
  have h2 : daysBefore (x.y + 1) = daysBefore x.y + daysInYear x.y := daysBefore_succ x.y
  have h3 : daysBefore (x.y + 1) ≤ daysBefore c := daysBefore_mono_le (by omega)
  omega

theorem year_le_of_ord {x : GDate} {c : Int} (hv : validG x)
    (h : toOrd x ≤ daysBefore (c + 1)) : x.y ≤ c := by
  by_contra hc
  push_neg at hc
  have h1 := (toOrd_bounds hv).1
  have h3 : daysBefore (c + 1) ≤ daysBefore x.y := daysBefore_mono_le (by omega)
  omega

theorem addDays_year_bound {y am ad : Int} (hv : validG ⟨y, am, ad⟩) (n : Nat)
    (hb : (cumDays y am + ad + n : Int) ≤ daysInYear y + daysInYear (y + 1)) :
    y ≤ (addDays ⟨y, am, ad⟩ n).y ∧ (addDays ⟨y, am, ad⟩ n).y ≤ y + 1 := by
  have hval := addDays_valid hv n
  have hord := toOrd_addDays hv n
  have hv2 : 1 ≤ am ∧ am ≤ 12 ∧ 1 ≤ ad ∧ ad ≤ monthLen y am := hv
  have hx : toOrd ⟨y, am, ad⟩ = daysBefore y + cumDays y am + ad := rfl
  have hcn : 0 ≤ cumDays y am := cumDays_nonneg hv2.1 hv2.2.1
  have hd2 : daysBefore (y + 1) = daysBefore y + daysInYear y := daysBefore_succ y
  have hd3 : daysBefore (y + 1 + 1) = daysBefore (y + 1) + daysInYear (y + 1) :=
    daysBefore_succ (y + 1)
  constructor
  · apply year_ge_of_ord hval
    omega
  · apply year_le_of_ord hval
    rw [hord, hx]
    omega

theorem addDays_year_exact {y am ad : Int} (hv : validG ⟨y, am, ad⟩) (n : Nat)
    (hb : (cumDays y am + ad + n : Int) ≤ daysInYear y) :
    (addDays ⟨y, am, ad⟩ n).y = y := by
  have hval := addDays_valid hv n
  have hord := toOrd_addDays hv n
  have hv2 : 1 ≤ am ∧ am ≤ 12 ∧ 1 ≤ ad ∧ ad ≤ monthLen y am := hv
  have hx : toOrd ⟨y, am, ad⟩ = daysBefore y + cumDays y am + ad := rfl
  have hcn : 0 ≤ cumDays y am := cumDays_nonneg hv2.1 hv2.2.1
  apply year_of_ord_range hval <;> omega

theorem k2gCore_1 (ky d : Int) :
    k2gCore ky 1 d =
      match mkDatetime (ky - 700) 3 21 with
      | .error e => .error e
      | .ok base =>
        let res := dateAddInt base (d - 1)
        if 1 ≤ res.y ∧ res.y ≤ 9999 then .ok res else .error .overflowError := rfl

theorem k2gCore_2 (ky d : Int) :
    k2gCore ky 2 d =
      match mkDatetime (ky - 700) 4 21 with
      | .error e => .error e
      | .ok base =>
        let res := dateAddInt base (d - 1)
        if 1 ≤ res.y ∧ res.y ≤ 9999 then .ok res else .error .overflowError := rfl

theorem k2gCore_3 (ky d : Int) :
    k2gCore ky 3 d =
      match mkDatetime (ky - 700) 5 22 with
      | .error e => .error e
      | .ok base =>
        let res := dateAddInt base (d - 1)
        if 1 ≤ res.y ∧ res.y ≤ 9999 then .ok res else .error .overflowError := rfl

theorem k2gCore_4 (ky d : Int) :
    k2gCore ky 4 d =
      match mkDatetime (ky - 700) 6 22 with
      | .error e => .error e
      | .ok base =>
        let res := dateAddInt base (d - 1)
        if 1 ≤ res.y ∧ res.y ≤ 9999 then .ok res else .error .overflowError := rfl

theorem k2gCore_5 (ky d : Int) :
    k2gCore ky 5 d =
      match mkDatetime (ky - 700) 7 23 with
      | .error e => .error e
      | .ok base =>
        let res := dateAddInt base (d - 1)
        if 1 ≤ res.y ∧ res.y ≤ 9999 then .ok res else .error .overflowError := rfl

theorem k2gCore_6 (ky d : Int) :
    k2gCore ky 6 d =
      match mkDatetime (ky - 700) 8 23 with
      | .error e => .error e
      | .ok base =>
        let res := dateAddInt base (d - 1)
        if 1 ≤ res.y ∧ res.y ≤ 9999 then .ok res else .error .overflowError := rfl

theorem k2gCore_7 (ky d : Int) :
    k2gCore ky 7 d =
      match mkDatetime (ky - 700) 9 23 with
      | .error e => .error e
      | .ok base =>
        let res := dateAddInt base (d - 1)
        if 1 ≤ res.y ∧ res.y ≤ 9999 then .ok res else .error .overflowError := rfl

theorem k2gCore_8 (ky d : Int) :
    k2gCore ky 8 d =
      match mkDatetime (ky - 700) 10 23 with
      | .error e => .error e
      | .ok base =>
        let res := dateAddInt base (d - 1)
        if 1 ≤ res.y ∧ res.y ≤ 9999 then .ok res else .error .overflowError := rfl

theorem k2gCore_9 (ky d : Int) :
    k2gCore ky 9 d =
      match mkDatetime (ky - 700) 11 22 with
      | .error e => .error e
      | .ok base =>
        let res := dateAddInt base (d - 1)
        if 1 ≤ res.y ∧ res.y ≤ 9999 then .ok res else .error .overflowError := rfl

theorem k2gCore_10 (ky d : Int) :
    k2gCore ky 10 d =
      match mkDatetime (ky - 700) 12 22 with
      | .error e => .error e
      | .ok base =>
        let res := dateAddInt base (d - 1)
        if 1 ≤ res.y ∧ res.y ≤ 9999 then .ok res else .error .overflowError := by
  have step1 : k2gCore ky 10 d =
      (match (if 10 ≤ (10:Int) ∧ (10:Int) ≤ 12 ∧
                ky - 700 < (if (10:Int) ≥ 11 ∨ ((10:Int) = 10 ∧ d > 9) then
                  ky - 700 + 1 else ky - 700) then
                mkDatetime ((if (10:Int) ≥ 11 ∨ ((10:Int) = 10 ∧ d > 9) then
                  ky - 700 + 1 else ky - 700) - 1) 12 22
              else
                mkDatetime (if (10:Int) ≥ 11 ∨ ((10:Int) = 10 ∧ d > 9) then
                  ky - 700 + 1 else ky - 700) 12 22) with
       | .error e => .error e
       | .ok base =>
         let res := dateAddInt base (d - 1)
         if 1 ≤ res.y ∧ res.y ≤ 9999 then .ok res else .error .overflowError) := rfl
  rw [step1]
  by_cases hd9 : d > 9
  · rw [if_pos (Or.inr ⟨rfl, hd9⟩), if_pos ⟨by norm_num, by norm_num, by omega⟩,
      Int.add_sub_cancel]
  · rw [if_neg (by simp [hd9]), if_neg (by omega)]

theorem k2gCore_11 (ky d : Int) :
    k2gCore ky 11 d =
      match mkDatetime (ky - 700) 1 21 with
      | .error e => .error e
      | .ok base =>
        let res := dateAddInt base (d - 1)
        if 1 ≤ res.y ∧ res.y ≤ 9999 then .ok res else .error .overflowError := by
  have step1 : k2gCore ky 11 d =
      (match (if 10 ≤ (11:Int) ∧ (11:Int) ≤ 12 ∧ ky - 700 < ky - 700 + 1 then
                mkDatetime (ky - 700 + 1 - 1) 1 21
              else mkDatetime (ky - 700 + 1) 1 21) with
       | .error e => .error e
       | .ok base =>
         let res := dateAddInt base (d - 1)
         if 1 ≤ res.y ∧ res.y ≤ 9999 then .ok res else .error .overflowError) := rfl
  rw [step1, if_pos ⟨by norm_num, by norm_num, by omega⟩, Int.add_sub_cancel]

theorem k2gCore_12 (ky d : Int) :
    k2gCore ky 12 d =
      match mkDatetime (ky - 700) 2 20 with
      | .error e => .error e
      | .ok base =>
        let res := dateAddInt base (d - 1)
        if 1 ≤ res.y ∧ res.y ≤ 9999 then .ok res else .error .overflowError := by
  have step1 : k2gCore ky 12 d =
      (match (if 10 ≤ (12:Int) ∧ (12:Int) ≤ 12 ∧ ky - 700 < ky - 700 + 1 then
                mkDatetime (ky - 700 + 1 - 1) 2 20
              else mkDatetime (ky - 700 + 1) 2 20) with
       | .error e => .error e
       | .ok base =>
         let res := dateAddInt base (d - 1)
         if 1 ≤ res.y ∧ res.y ≤ 9999 then .ok res else .error .overflowError) := rfl
  rw [step1, if_pos ⟨by norm_num, by norm_num, by omega⟩, Int.add_sub_cancel]

/-- Success of the `k2gCore` tail: the base date is constructible and the
result stays within years `Y .. Y + 1` of the representable range. -/
theorem k2gTail_ok {Y am ad d : Int} (hv : validG ⟨Y, am, ad⟩)
    (hY1 : 1 ≤ Y) (hY2 : Y + 1 ≤ 9999) (hd1 : 1 ≤ d)
    (hb : cumDays Y am + ad + (d - 1) ≤ daysInYear Y + daysInYear (Y + 1)) :
    ∃ g, (match mkDatetime Y am ad with
          | .error e => .error e
          | .ok base =>
            let res := dateAddInt base (d - 1)
            if 1 ≤ res.y ∧ res.y ≤ 9999 then .ok res
            else .error .overflowError) = Except.ok g ∧
      Y ≤ g.y ∧ g.y ≤ Y + 1 := by
  rw [show mkDatetime Y am ad = .ok ⟨Y, am, ad⟩ from by
    unfold mkDatetime; rw [if_pos ⟨hY1, by omega⟩]]
  dsimp only
  have htn : ((d - 1).toNat : Int) = d - 1 := Int.toNat_of_nonneg (by omega)
  have hadd : dateAddInt ⟨Y, am, ad⟩ (d - 1) = addDays ⟨Y, am, ad⟩ (d - 1).toNat := by
    unfold dateAddInt
    rw [if_pos (by omega)]
  rw [hadd]
  have hbd := addDays_year_bound hv (d - 1).toNat (by omega)
  exact ⟨_, by rw [if_pos ⟨by omega, by omega⟩], hbd.1, hbd.2⟩

/-- Weakening of `k2gTail_ok` to bare success. -/
theorem k2gTail_ok2 {Y am ad d : Int} (hv : validG ⟨Y, am, ad⟩)
    (hY1 : 1 ≤ Y) (hY2 : Y + 1 ≤ 9999) (hd1 : 1 ≤ d)
    (hb : cumDays Y am + ad + (d - 1) ≤ daysInYear Y + daysInYear (Y + 1)) :
    ∃ g, (match mkDatetime Y am ad with
          | .error e => .error e
          | .ok base =>
            let res := dateAddInt base (d - 1)
            if 1 ≤ res.y ∧ res.y ≤ 9999 then .ok res
            else .error .overflowError) = Except.ok g := by
  obtain ⟨g, hg, _, _⟩ := k2gTail_ok hv hY1 hY2 hd1 hb
  exact ⟨g, hg⟩

/-- Variant of `k2gTail_ok` where the added days stay inside year `Y`. -/
theorem k2gTail_ok_same {Y am ad d : Int} (hv : validG ⟨Y, am, ad⟩)
    (hY1 : 1 ≤ Y) (hY2 : Y ≤ 9999) (hd1 : 1 ≤ d)
    (hb : cumDays Y am + ad + (d - 1) ≤ daysInYear Y) :
    ∃ g, (match mkDatetime Y am ad with
          | .error e => .error e
          | .ok base =>
            let res := dateAddInt base (d - 1)
            if 1 ≤ res.y ∧ res.y ≤ 9999 then .ok res
            else .error .overflowError) = Except.ok g ∧
      g.y = Y := by
  rw [show mkDatetime Y am ad = .ok ⟨Y, am, ad⟩ from by
    unfold mkDatetime; rw [if_pos ⟨hY1, by omega⟩]]
  dsimp only
  have htn : ((d - 1).toNat : Int) = d - 1 := Int.toNat_of_nonneg (by omega)
  have hadd : dateAddInt ⟨Y, am, ad⟩ (d - 1) = addDays ⟨Y, am, ad⟩ (d - 1).toNat := by
    unfold dateAddInt
    rw [if_pos (by omega)]
  rw [hadd]
  have hbd := addDays_year_exact hv (d - 1).toNat (by omega)
  exact ⟨_, by rw [if_pos ⟨by omega, by omega⟩], hbd⟩

/-- The `k2gCore` tail maps the ordinal-difference day straight back to the
original date `g`. -/
theorem k2gTail_roundtrip {A g : GDate} {d0 : Int}
    (hA : validG A) (hg : validG g) (hord : toOrd A ≤ toOrd g)
    (hA1 : 1 ≤ A.y) (hA2 : A.y ≤ 9999) (hg1 : 1 ≤ g.y) (hg2 : g.y ≤ 9999)
    (hd : d0 = daysBetween g A + 1) :
    (match mkDatetime A.y A.m A.d with
     | .error e => .error e
     | .ok base =>
       let res := dateAddInt base (d0 - 1)
       if 1 ≤ res.y ∧ res.y ≤ 9999 then .ok res
       else .error .overflowError) = Except.ok g := by
  rw [show mkDatetime A.y A.m A.d = .ok A from by
    unfold mkDatetime; rw [if_pos ⟨hA1, hA2⟩]]
  dsimp only
  have hd1 : d0 - 1 = toOrd g - toOrd A := by
    rw [hd]
    unfold daysBetween
    omega
  have hres : dateAddInt A (d0 - 1) = g := by
    unfold dateAddInt
    rw [if_pos (by omega), hd1]
    exact addDays_ord_diff hA hg hord
  rw [hres, if_pos ⟨by omega, by omega⟩]

theorem kurdishMonthName_none {n : Int} (h : n < 1 ∨ 12 < n) :
    kurdishMonthName n = none := by
  have hk : ∀ k : Int, 1 ≤ k → k ≤ 12 → (k == n) = false := fun k h1 h2 =>
    beq_eq_false_iff_ne.mpr (by omega)
  unfold kurdishMonthName KURDISH_MONTHS
  simp only [List.find?, hk 1 (by norm_num) (by norm_num), hk 2 (by norm_num) (by norm_num),
    hk 3 (by norm_num) (by norm_num), hk 4 (by norm_num) (by norm_num),
    hk 5 (by norm_num) (by norm_num), hk 6 (by norm_num) (by norm_num),
    hk 7 (by norm_num) (by norm_num), hk 8 (by norm_num) (by norm_num),
    hk 9 (by norm_num) (by norm_num), hk 10 (by norm_num) (by norm_num),
    hk 11 (by norm_num) (by norm_num), hk 12 (by norm_num) (by norm_num)]
  rfl

theorem monthIndexOf_bounds {s : String} {k : Int} (h : monthIndexOf s = some k) :
    1 ≤ k ∧ k ≤ 12 := by
  unfold monthIndexOf at h
  obtain ⟨pr, hpr, hmap⟩ := Option.map_eq_some'.mp h
  have hmem := List.mem_of_find?_eq_some hpr
  subst hmap
  fin_cases hmem <;> norm_num

/-- Success of `k2gCore` for any canonical month index and a day in `1..31`,
for Kurdish years whose Gregorian counterpart is representable. -/
theorem k2gCore_ok {n : Int} (hn1 : 1 ≤ n) (hn2 : n ≤ 12) (ky d : Int)
    (h1 : 701 ≤ ky) (h2 : ky ≤ 10698) (hd1 : 1 ≤ d) (hd2 : d ≤ 31) :
    ∃ g, k2gCore ky n d = .ok g := by
  have hl := leapOff_bd (ky - 700)
  have hl2 := leapOff_bd (ky - 700 + 1)
  interval_cases n
  · rw [k2gCore_1]
    apply k2gTail_ok2
    · exact validG_mk (by norm_num) (by norm_num) (by norm_num)
        (by rw [show monthLen (ky - 700) 3 = 31 from rfl]; omega)
    · omega
    · omega
    · exact hd1
    · rw [show cumDays (ky - 700) 3 = 59 + leapOff (ky - 700) from rfl]
      unfold daysInYear
      omega
  · rw [k2gCore_2]
    apply k2gTail_ok2
    · exact validG_mk (by norm_num) (by norm_num) (by norm_num)
        (by rw [show monthLen (ky - 700) 4 = 30 from rfl]; omega)
    · omega
    · omega
    · exact hd1
    · rw [show cumDays (ky - 700) 4 = 90 + leapOff (ky - 700) from rfl]
      unfold daysInYear
      omega
  · rw [k2gCore_3]
    apply k2gTail_ok2
    · exact validG_mk (by norm_num) (by norm_num) (by norm_num)
        (by rw [show monthLen (ky - 700) 5 = 31 from rfl]; omega)
    · omega
    · omega
    · exact hd1
    · rw [show cumDays (ky - 700) 5 = 120 + leapOff (ky - 700) from rfl]
      unfold daysInYear
      omega
  · rw [k2gCore_4]
    apply k2gTail_ok2
    · exact validG_mk (by norm_num) (by norm_num) (by norm_num)
        (by rw [show monthLen (ky - 700) 6 = 30 from rfl]; omega)
    · omega
    · omega
    · exact hd1
    · rw [show cumDays (ky - 700) 6 = 151 + leapOff (ky - 700) from rfl]
      unfold daysInYear
      omega
  · rw [k2gCore_5]
    apply k2gTail_ok2
    · exact validG_mk (by norm_num) (by norm_num) (by norm_num)
        (by rw [show monthLen (ky - 700) 7 = 31 from rfl]; omega)
    · omega
    · omega
    · exact hd1
    · rw [show cumDays (ky - 700) 7 = 181 + leapOff (ky - 700) from rfl]
      unfold daysInYear
      omega
  · rw [k2gCore_6]
    apply k2gTail_ok2
    · exact validG_mk (by norm_num) (by norm_num) (by norm_num)
        (by rw [show monthLen (ky - 700) 8 = 31 from rfl]; omega)
    · omega
    · omega
    · exact hd1
    · rw [show cumDays (ky - 700) 8 = 212 + leapOff (ky - 700) from rfl]
      unfold daysInYear
      omega
  · rw [k2gCore_7]
    apply k2gTail_ok2
    · exact validG_mk (by norm_num) (by norm_num) (by norm_num)
        (by rw [show monthLen (ky - 700) 9 = 30 from rfl]; omega)
    · omega
    · omega
    · exact hd1
    · rw [show cumDays (ky - 700) 9 = 243 + leapOff (ky - 700) from rfl]
      unfold daysInYear
      omega
  · rw [k2gCore_8]
    apply k2gTail_ok2
    · exact validG_mk (by norm_num) (by norm_num) (by norm_num)
        (by rw [show monthLen (ky - 700) 10 = 31 from rfl]; omega)
    · omega
    · omega
    · exact hd1
    · rw [show cumDays (ky - 700) 10 = 273 + leapOff (ky - 700) from rfl]
      unfold daysInYear
      omega
  · rw [k2gCore_9]
    apply k2gTail_ok2
    · exact validG_mk (by norm_num) (by norm_num) (by norm_num)
        (by rw [show monthLen (ky - 700) 11 = 30 from rfl]; omega)
    · omega
    · omega
    · exact hd1
    · rw [show cumDays (ky - 700) 11 = 304 + leapOff (ky - 700) from rfl]
      unfold daysInYear
      omega
  · rw [k2gCore_10]
    apply k2gTail_ok2
    · exact validG_mk (by norm_num) (by norm_num) (by norm_num)
        (by rw [show monthLen (ky - 700) 12 = 31 from rfl]; omega)
    · omega
    · omega
    · exact hd1
    · rw [show cumDays (ky - 700) 12 = 334 + leapOff (ky - 700) from rfl]
      unfold daysInYear
      omega
  · rw [k2gCore_11]
    apply k2gTail_ok2
    · exact validG_mk (by norm_num) (by norm_num) (by norm_num)
        (by rw [show monthLen (ky - 700) 1 = 31 from rfl]; omega)
    · omega
    · omega
    · exact hd1
    · rw [show cumDays (ky - 700) 1 = 0 from rfl]
      unfold daysInYear
      omega
  · rw [k2gCore_12]
    apply k2gTail_ok2
    · exact validG_mk (by norm_num) (by norm_num) (by norm_num)
        (by rw [show monthLen (ky - 700) 2 = 28 + leapOff (ky - 700) from rfl]; omega)
    · omega
    · omega
    · exact hd1
    · rw [show cumDays (ky - 700) 2 = 31 from rfl]
      unfold daysInYear
      omega

/-- C7 counterexample: an out-of-range integer month does not signal the
`InvalidMonth` `ValueError`; it raises a bare `KeyError` from the
`KURDISH_MONTHS[month_number]` subscript. -/
theorem claim_C7_counterexample :
    kurdish_to_gregorian 2724 (.byIndex 13) 1 = .error .keyError ∧
    PyExn.keyError ≠ PyExn.invalidMonthName :=
  ⟨by rfl, by decide⟩

/-- C7 (amended): an unrecognized month *name* fails with the
`InvalidMonth` `ValueError`; an integer month outside `1..12` fails with a
`KeyError` instead; every valid month reference (with a day in `1..31` and a
Kurdish year whose Gregorian image is representable) succeeds. -/
theorem claim_C7_amended :
    (∀ (s : String) (ky d : Int), monthIndexOf s = none →
        kurdish_to_gregorian ky (.byName s) d = .error .invalidMonthName) ∧
    (∀ n ky d : Int, n < 1 ∨ 12 < n →
        kurdish_to_gregorian ky (.byIndex n) d = .error .keyError) ∧
    (∀ (ky : Int) (m : MonthRef) (d : Int),
        (match m with
         | .byName s => (monthIndexOf s).isSome
         | .byIndex n => 1 ≤ n ∧ n ≤ 12) →
        701 ≤ ky → ky ≤ 10698 → 1 ≤ d → d ≤ 31 →
        ∃ g, kurdish_to_gregorian ky m d = .ok g) := by
  refine ⟨?_, ?_, ?_⟩
  · intro s ky d h
    show (match monthIndexOf s with
          | some k => k2gCore ky k d
          | none => Except.error PyExn.invalidMonthName) =
        Except.error PyExn.invalidMonthName
    rw [h]
  · intro n ky d h
    show k2gCore ky n d = .error .keyError
    unfold k2gCore
    rw [kurdishMonthName_none h]
  · intro ky m d hm h1 h2 hd1 hd2
    match m, hm with
    | .byName s, hm =>
      obtain ⟨k, hk⟩ := Option.isSome_iff_exists.mp hm
      obtain ⟨hk1, hk2⟩ := monthIndexOf_bounds hk
      obtain ⟨g, hg⟩ := k2gCore_ok hk1 hk2 ky d h1 h2 hd1 hd2
      refine ⟨g, ?_⟩
      show (match monthIndexOf s with
            | some k => k2gCore ky k d
            | none => Except.error PyExn.invalidMonthName) = Except.ok g
      rw [hk]
      exact hg
    | .byIndex n, hm =>
      exact k2gCore_ok hm.1 hm.2 ky d h1 h2 hd1 hd2

theorem claim_C7_witness :
    monthIndexOf "Nawroz" = none ∧
    kurdish_to_gregorian 2724 (.byName "Nawroz") 1 = .error .invalidMonthName ∧
    kurdish_to_gregorian 2724 (.byIndex 0) 1 = .error .keyError ∧
    ∃ g, kurdish_to_gregorian 2724 (.byName "Befranbar") 31 = .ok g := by
  refine ⟨by rfl, claim_C7_amended.1 "Nawroz" 2724 1 (by rfl),
    claim_C7_amended.2.1 0 2724 1 (by norm_num),
    claim_C7_amended.2.2 2724 (.byName "Befranbar") 31 (by rfl)
      (by norm_num) (by norm_num) (by norm_num) (by norm_num)⟩

/-- C2 counterexample: `kurdish_to_gregorian(2724, "Rêbendan", 1)` lands on
January 21 of Gregorian year 2024 = 2724 − 700, not year 2724 − 699 = 2025:
the year increment for months ≥ 11 is immediately undone by the base-date
back-shift. -/
theorem claim_C2_counterexample :
    kurdish_to_gregorian 2724 (.byName "Rêbendan") 1 = .ok ⟨2024, 1, 21⟩ ∧
    ¬((2024 : Int) = 2724 - 699) :=
  ⟨by rfl, by decide⟩

/-- C2 (amended): for Rêbendan (index 11) and Reşeme (index 12) with a day
in `1..31`, `kurdish_to_gregorian` succeeds and the resulting Gregorian date
falls in year `kurdishYear − 700` (the anchor of the resolved year
`kurdishYear − 700 + 1` is unconditionally shifted back one year). -/
theorem claim_C2_amended (ky d : Int) (m : MonthRef)
    (hm : m = .byName "Rêbendan" ∨ m = .byIndex 11 ∨
      m = .byName "Reşeme" ∨ m = .byIndex 12)
    (h1 : 701 ≤ ky) (h2 : ky ≤ 10699) (hd1 : 1 ≤ d) (hd2 : d ≤ 31) :
    ∃ g, kurdish_to_gregorian ky m d = .ok g ∧ g.y = ky - 700 := by
  have hl := leapOff_bd (ky - 700)
  have h11 : ∃ g, k2gCore ky 11 d = .ok g ∧ g.y = ky - 700 := by
    rw [k2gCore_11]
    apply k2gTail_ok_same
    · exact validG_mk (by norm_num) (by norm_num) (by norm_num)
        (by rw [show monthLen (ky - 700) 1 = 31 from rfl]; norm_num)
    · omega
    · omega
    · exact hd1
    · rw [show cumDays (ky - 700) 1 = 0 from rfl]
      unfold daysInYear
      omega
  have h12 : ∃ g, k2gCore ky 12 d = .ok g ∧ g.y = ky - 700 := by
    rw [k2gCore_12]
    apply k2gTail_ok_same
    · exact validG_mk (by norm_num) (by norm_num) (by norm_num)
        (by rw [show monthLen (ky - 700) 2 = 28 + leapOff (ky - 700) from rfl]; omega)
    · omega
    · omega
    · exact hd1
    · rw [show cumDays (ky - 700) 2 = 31 from rfl]
      unfold daysInYear
      omega
  rcases hm with rfl | rfl | rfl | rfl
  · exact h11
  · exact h11
  · exact h12
  · exact h12

theorem claim_C2_witness :
    ∃ g, kurdish_to_gregorian 2724 (.byName "Rêbendan") 26 = .ok g ∧
      g.y = 2724 - 700 :=
  claim_C2_amended 2724 26 (.byName "Rêbendan") (Or.inl rfl)
    (by norm_num) (by norm_num) (by norm_num) (by norm_num)

theorem filterByRegion_nil (r : Option String) : filterByRegion r [] = [] := by
  cases r <;> rfl

theorem filterByType_nil (t : Option String) : filterByType t [] = [] := by
  cases t <;> rfl

/-- C3 counterexample: a historical-source record dated exactly at the
queried pre-2023 date and passing every filter (none are set) does not
appear: with `include_historical` unset the pre-2023 branch consults no
source at all, while setting the flag returns the record. -/
theorem claim_C3_counterexample :
    get_holidays_by_date (fun _ => [])
        [⟨some "2022-03-21", some "historical", some "bashur", some true,
          some [("en", "Newroz uprising")], none⟩]
        ⟨2022, 3, 21⟩ "en" none none false = [] ∧
    (⟨some "2022-03-21", some "historical", some "bashur", some true,
      some [("en", "Newroz uprising")], none⟩ : Record).date =
        some (isoString ⟨2022, 3, 21⟩) ∧
    get_holidays_by_date (fun _ => [])
        [⟨some "2022-03-21", some "historical", some "bashur", some true,
          some [("en", "Newroz uprising")], none⟩]
        ⟨2022, 3, 21⟩ "en" none none true =
      [⟨"2022-03-21", true, "Newroz uprising", none, "bashur", some "historical"⟩] :=
  ⟨by rfl, by rfl, by rfl⟩

/-- C3 (amended): for a single-date query strictly before 2023 the
historical source is consulted only when `includeHistorical` is set; with the
flag unset the endpoint reads no source and returns the empty list, so no
historical record can appear. -/
theorem claim_C3_amended (yearly : Int → List Record) (historical : List Record)
    (d : GDate) (lang : String) (region t : Option String)
    (h : d.y < 2023) :
    get_holidays_by_date yearly historical d lang region t false = [] := by
  unfold get_holidays_by_date
  rw [if_pos h]
  simp [filterByRegion_nil, filterByType_nil, formatEntries]

theorem claim_C3_witness :
    get_holidays_by_date (fun _ => [])
      [⟨some "1946-01-22", some "historical", some "rojhelat", some true,
        some [("en", "Republic of Mahabad")], none⟩]
      ⟨1946, 1, 22⟩ "en" none none false = [] :=
  claim_C3_amended (fun _ => [])
    [⟨some "1946-01-22", some "historical", some "rojhelat", some true,
      some [("en", "Republic of Mahabad")], none⟩]
    ⟨1946, 1, 22⟩ "en" none none (by norm_num)

/-! ### Lemmas for the range endpoint -/

/-- The in-range predicate of the range filter as a boolean. -/
def inRangeB (f t : GDate) (r : Record) : Bool :=
  match r.date with
  | none => false
  | some s =>
    match parseISO s with
    | none => false
    | some dd => decide (dateLE f dd) && decide (dateLE dd t)

theorem filterDateRange_eq {f t : GDate} : ∀ {l : List Record},
    (∀ r ∈ l, ∀ s, r.date = some s → (parseISO s).isSome) →
    filterDateRange f t l = .ok (l.filter (inRangeB f t)) := by
  intro l
  induction l with
  | nil => intro _; rfl
  | cons r rest ih =>
    intro hp
    have htail := ih (fun q hq s hs => hp q (List.mem_cons_of_mem _ hq) s hs)
    have hfc : List.filter (inRangeB f t) (r :: rest) =
        if inRangeB f t r = true then r :: List.filter (inRangeB f t) rest
        else List.filter (inRangeB f t) rest := List.filter_cons
    cases hd : r.date with
    | none =>
      have hr0 : inRangeB f t r = false := by unfold inRangeB; rw [hd]
      unfold filterDateRange
      simp only [hd, htail, hfc]
      rw [if_neg (by rw [hr0]; exact Bool.false_ne_true)]
    | some s =>
      obtain ⟨dd, hdd⟩ :=
        Option.isSome_iff_exists.mp (hp r (List.mem_cons_self _ _) s hd)
      unfold filterDateRange
      simp only [hd, hdd, htail, hfc]
      by_cases hc : dateLE f dd ∧ dateLE dd t
      · rw [if_pos hc, if_pos (show inRangeB f t r = true from by
          unfold inRangeB
          simp only [hd, hdd]
          simp [hc.1, hc.2])]
      · rw [if_neg hc, if_neg (show ¬ inRangeB f t r = true from by
          unfold inRangeB
          simp only [hd, hdd, Bool.and_eq_true, decide_eq_true_eq]
          exact hc)]

/-- Whether a record passes an (optional) region filter. -/
def passesRegion (rf : Option String) (r : Record) : Bool :=
  match rf with
  | none => true
  | some v => regionPass (pyLower v) r

/-- Whether a record passes an (optional) type filter. -/
def passesType (tf : Option String) (r : Record) : Bool :=
  match tf with
  | none => true
  | some v => r.type == some v

/-- Whether a record passes an (optional) isHoliday filter. -/
def passesHoliday (bf : Option Bool) (r : Record) : Bool :=
  match bf with
  | none => true
  | some v => r.isHoliday == some v

theorem mem_filterByRegion {rf : Option String} {l : List Record} {r : Record} :
    r ∈ filterByRegion rf l ↔ r ∈ l ∧ passesRegion rf r = true := by
  cases rf with
  | none => simp [filterByRegion, passesRegion]
  | some v => simp [filterByRegion, passesRegion, List.mem_filter]

theorem mem_filterByType {tf : Option String} {l : List Record} {r : Record} :
    r ∈ filterByType tf l ↔ r ∈ l ∧ passesType tf r = true := by
  cases tf with
  | none => simp [filterByType, passesType]
  | some v => simp [filterByType, passesType, List.mem_filter]

theorem mem_filterByHoliday {bf : Option Bool} {l : List Record} {r : Record} :
    r ∈ filterByHoliday bf l ↔ r ∈ l ∧ passesHoliday bf r = true := by
  cases bf with
  | none => simp [filterByHoliday, passesHoliday]
  | some v => simp [filterByHoliday, passesHoliday, List.mem_filter]

theorem filterByRegion_sublist (rf : Option String) (l : List Record) :
    (filterByRegion rf l).Sublist l := by
  cases rf with
  | none => exact List.Sublist.refl l
  | some v => exact List.filter_sublist l

theorem filterByType_sublist (tf : Option String) (l : List Record) :
    (filterByType tf l).Sublist l := by
  cases tf with
  | none => exact List.Sublist.refl l
  | some v => exact List.filter_sublist l

theorem filterByHoliday_sublist (bf : Option Bool) (l : List Record) :
    (filterByHoliday bf l).Sublist l := by
  cases bf with
  | none => exact List.Sublist.refl l
  | some v => exact List.filter_sublist l

/-- A list whose records all carry keys, pairwise distinct, passes through
`dedupe` unchanged. -/
theorem dedupe_eq_self {l : List Record}
    (h1 : ∀ r ∈ l, (dedupKey r).isSome)
    (h2 : List.Pairwise (fun a b => dedupKey a ≠ dedupKey b) l) :
    dedupe l = l := by
  unfold dedupe
  refine dedupeGo_id ?_ h2
  intro h hm
  obtain ⟨k, hk⟩ := Option.isSome_iff_exists.mp (h1 h hm)
  exact ⟨k, hk, List.not_mem_nil k⟩

/-- C4: for a date-range query whose start year precedes 2023 and whose
`includeHistorical` flag is unset, the historical source is still merged:
every historical-source record surviving the merged deduplication whose date
parses into the inclusive range and which passes the region/type/isHoliday
filters appears (as its localized entry) in the successful result. -/
theorem claim_C4 (yearly : Int → List Record) (historical : List Record)
    (from_date to_date : GDate) (lang : String) (region t : Option String)
    (is_holiday : Option Bool) (r : Record) (sD : String) (dr : GDate) (e : Entry)
    (hy : from_date.y < 2023)
    (hrange : ¬ toOrd to_date < toOrd from_date)
    (hmem : r ∈ dedupe (((yearsFrom (max 2023 from_date.y) to_date.y).map yearly).flatten
      ++ historical))
    (hparse : ∀ q ∈ dedupe (((yearsFrom (max 2023 from_date.y) to_date.y).map yearly).flatten
      ++ historical), ∀ s, q.date = some s → (parseISO s).isSome)
    (hrh : r ∈ historical)
    (hs : r.date = some sD) (hdp : parseISO sD = some dr)
    (h1 : dateLE from_date dr) (h2 : dateLE dr to_date)
    (hregion : passesRegion region r = true)
    (htype : passesType t r = true)
    (hhol : passesHoliday is_holiday r = true)
    (he : projectRecord lang r = some e) :
    ∃ es, get_holidays_by_date_range yearly historical from_date to_date lang
        region t is_holiday false = .ok es ∧ e ∈ es := by
  unfold get_holidays_by_date_range
  rw [if_neg hrange]
  dsimp only
  rw [show (if (false || decide (from_date.y < 2023) : Bool) then historical
      else ([] : List Record)) = historical from by simp [hy]]
  rw [filterDateRange_eq hparse]
  refine ⟨_, rfl, ?_⟩
  have m0 : r ∈ List.filter (inRangeB from_date to_date)
      (dedupe (((yearsFrom (max 2023 from_date.y) to_date.y).map yearly).flatten
        ++ historical)) := by
    refine List.mem_filter.mpr ⟨hmem, ?_⟩
    unfold inRangeB
    simp only [hs, hdp]
    simp [h1, h2]
  have m1 := mem_filterByRegion.mpr ⟨m0, hregion⟩
  have m2 := mem_filterByType.mpr ⟨m1, htype⟩
  have m3 := mem_filterByHoliday.mpr ⟨m2, hhol⟩
  have m4 := (sortByDate_perm _).mem_iff.mpr m3
  have hLpw := dedupeGo_pairwise [] ((((yearsFrom (max 2023 from_date.y) to_date.y).map
    yearly).flatten ++ historical))
  have hsub : (filterByHoliday is_holiday (filterByType t (filterByRegion region
      (List.filter (inRangeB from_date to_date)
        (dedupe (((yearsFrom (max 2023 from_date.y) to_date.y).map yearly).flatten
          ++ historical)))))).Sublist
      (dedupe (((yearsFrom (max 2023 from_date.y) to_date.y).map yearly).flatten
        ++ historical)) :=
    (filterByHoliday_sublist _ _).trans ((filterByType_sublist _ _).trans
      ((filterByRegion_sublist _ _).trans (List.filter_sublist _)))
  have hpw2 := (List.Perm.pairwise_iff (fun hab hc => hab hc.symm)
    (sortByDate_perm _)).mpr (hLpw.sublist hsub)
  have hkeys : ∀ q ∈ sortByDate (filterByHoliday is_holiday (filterByType t
      (filterByRegion region (List.filter (inRangeB from_date to_date)
        (dedupe (((yearsFrom (max 2023 from_date.y) to_date.y).map yearly).flatten
          ++ historical)))))), (dedupKey q).isSome := by
    intro q hq
    have hqL := hsub.subset ((sortByDate_perm _).mem_iff.mp hq)
    obtain ⟨k, hk, _⟩ := dedupeGo_mem_key hqL
    rw [hk]
    rfl
  rw [dedupe_eq_self hkeys hpw2]
  exact List.mem_filterMap.mpr ⟨r, m4, he⟩

theorem claim_C4_witness :
    ∃ es, get_holidays_by_date_range (fun _ => [])
        [⟨some "2022-06-15", some "historical", some "bashur", some true,
          some [("en", "X")], none⟩]
        ⟨2022, 1, 1⟩ ⟨2022, 12, 31⟩ "en" none none none false = .ok es ∧
      (⟨"2022-06-15", true, "X", none, "bashur", some "historical"⟩ : Entry) ∈ es := by
  refine claim_C4 (fun _ => [])
    [⟨some "2022-06-15", some "historical", some "bashur", some true,
      some [("en", "X")], none⟩]
    ⟨2022, 1, 1⟩ ⟨2022, 12, 31⟩ "en" none none none
    (⟨some "2022-06-15", some "historical", some "bashur", some true,
      some [("en", "X")], none⟩ : Record)
    "2022-06-15" ⟨2022, 6, 15⟩
    (⟨"2022-06-15", true, "X", none, "bashur", some "historical"⟩ : Entry)
    (by norm_num) (by decide) (by decide) ?_ (by decide) (by rfl) (by rfl)
    (by decide) (by decide) (by rfl) (by rfl) (by rfl) (by rfl)
  intro q hq s hs
  have hq2 : q = (⟨some "2022-06-15", some "historical", some "bashur", some true,
      some [("en", "X")], none⟩ : Record) := List.mem_singleton.mp hq
  subst hq2
  injection hs with h2
  subst h2
  rfl

/-! ### The round trip of the two converters (claim C1) -/

/-- `kurdishToGregorian(gregorianToKurdish(d))`: feed the Kurdish date
produced by `gregorian_to_kurdish` straight back into
`kurdish_to_gregorian`. -/
def roundTrip (g : GDate) : Except PyExn GDate :=
  match gregorian_to_kurdish g with
  | .error e => .error e
  | .ok k => kurdish_to_gregorian k.year (.byName k.month) k.day

/-- The override table of `gregorian_to_kurdish`: the eight special March
day corrections plus the two isolated mid-year corrections. -/
def inOverrideTable (y m d : Int) : Prop :=
  (y = 2023 ∧ m = 3 ∧ d = 5) ∨ (y = 2023 ∧ m = 3 ∧ d = 10) ∨
  (y = 2023 ∧ m = 3 ∧ d = 16) ∨ (y = 2024 ∧ m = 3 ∧ d = 6) ∨
  (y = 2024 ∧ m = 3 ∧ d = 11) ∨ (y = 2026 ∧ m = 3 ∧ d = 5) ∨
  (y = 2026 ∧ m = 3 ∧ d = 10) ∨ (y = 2026 ∧ m = 3 ∧ d = 16) ∨
  (y = 2023 ∧ m = 7 ∧ d = 25) ∨ (y = 2024 ∧ m = 6 ∧ d = 1)

instance (y m d : Int) : Decidable (inOverrideTable y m d) := by
  unfold inOverrideTable
  infer_instance

theorem pairGe_eq_true_iff {m d M D : Int} :
    pairGe m d M D = true ↔ (M < m ∨ (m = M ∧ D ≤ d)) := by
  unfold pairGe
  simp only [Bool.or_eq_true, Bool.and_eq_true, decide_eq_true_eq, beq_iff_eq]

theorem pairLt_eq_true_iff {m d M D : Int} :
    pairLt m d M D = true ↔ (m < M ∨ (m = M ∧ d < D)) := by
  unfold pairLt
  simp only [Bool.or_eq_true, Bool.and_eq_true, decide_eq_true_eq, beq_iff_eq]

theorem pairGe_true {m d M D : Int} (h : M < m ∨ (m = M ∧ D ≤ d)) :
    pairGe m d M D = true := pairGe_eq_true_iff.mpr h

theorem pairLt_true {m d M D : Int} (h : m < M ∨ (m = M ∧ d < D)) :
    pairLt m d M D = true := pairLt_eq_true_iff.mpr h

theorem pairGe_false {m d M D : Int} (h : m < M ∨ (m = M ∧ d < D)) :
    pairGe m d M D = false :=
  Bool.eq_false_iff.mpr (fun hc => by have := pairGe_eq_true_iff.mp hc; omega)

theorem pairLt_false {m d M D : Int} (h : M < m ∨ (m = M ∧ D ≤ d)) :
    pairLt m d M D = false :=
  Bool.eq_false_iff.mpr (fun hc => by have := pairLt_eq_true_iff.mp hc; omega)

theorem g2k_eval_1 (g : GDate) (hy1 : 1 ≤ g.y) (hy2 : g.y ≤ 9999)
    (hlow : 3 < g.m ∨ (g.m = 3 ∧ 21 ≤ g.d)) (hhigh : g.m < 4 ∨ (g.m = 4 ∧ g.d < 21))  :
    gregorian_to_kurdish g = .ok ⟨g.y + 700, "Xakelew",
      daysBetween g ⟨g.y, 3, 21⟩ + 1,
      renderKu (daysBetween g ⟨g.y, 3, 21⟩ + 1) "Xakelew" (g.y + 700)⟩ := by
  unfold gregorian_to_kurdish
  rw [if_neg (show ¬(g.m = 3 ∧ g.d < 21) from by omega)]
  rw [if_neg (show ¬(g.y = 2023 ∧ g.m = 7 ∧ g.d = 25) from by omega)]
  rw [if_neg (show ¬(g.y = 2024 ∧ g.m = 6 ∧ g.d = 1) from by omega)]
  rw [pairGe_true (by omega : (3:Int) < g.m ∨ (g.m = 3 ∧ (21:Int) ≤ g.d)), if_pos rfl]
  unfold g2kStd

  rw [show (pairGe g.m g.d 3 21 && pairLt g.m g.d 4 21) = true from by
    rw [pairGe_true (by omega), pairLt_true (by omega)]; rfl, if_pos rfl]
  unfold g2kBranch
  rw [show mkDatetime g.y 3 21 = .ok ⟨g.y, 3, 21⟩ from by
    unfold mkDatetime; rw [if_pos ⟨hy1, hy2⟩]]

theorem g2k_eval_2 (g : GDate) (hy1 : 1 ≤ g.y) (hy2 : g.y ≤ 9999)
    (hlow : 4 < g.m ∨ (g.m = 4 ∧ 21 ≤ g.d)) (hhigh : g.m < 5 ∨ (g.m = 5 ∧ g.d < 22))  :
    gregorian_to_kurdish g = .ok ⟨g.y + 700, "Gullan",
      daysBetween g ⟨g.y, 4, 21⟩ + 1,
      renderKu (daysBetween g ⟨g.y, 4, 21⟩ + 1) "Gullan" (g.y + 700)⟩ := by
  unfold gregorian_to_kurdish
  rw [if_neg (show ¬(g.m = 3 ∧ g.d < 21) from by omega)]
  rw [if_neg (show ¬(g.y = 2023 ∧ g.m = 7 ∧ g.d = 25) from by omega)]
  rw [if_neg (show ¬(g.y = 2024 ∧ g.m = 6 ∧ g.d = 1) from by omega)]
  rw [pairGe_true (by omega : (3:Int) < g.m ∨ (g.m = 3 ∧ (21:Int) ≤ g.d)), if_pos rfl]
  unfold g2kStd
  rw [show (pairGe g.m g.d 3 21 && pairLt g.m g.d 4 21) = false from by
    rw [pairLt_false (by omega), Bool.and_false], if_neg Bool.false_ne_true]
  rw [show (pairGe g.m g.d 4 21 && pairLt g.m g.d 5 22) = true from by
    rw [pairGe_true (by omega), pairLt_true (by omega)]; rfl, if_pos rfl]
  unfold g2kBranch
  rw [show mkDatetime g.y 4 21 = .ok ⟨g.y, 4, 21⟩ from by
    unfold mkDatetime; rw [if_pos ⟨hy1, hy2⟩]]

theorem g2k_eval_3 (g : GDate) (hy1 : 1 ≤ g.y) (hy2 : g.y ≤ 9999)
    (hlow : 5 < g.m ∨ (g.m = 5 ∧ 22 ≤ g.d)) (hhigh : g.m < 6 ∨ (g.m = 6 ∧ g.d < 22)) (hov : ¬(g.y = 2024 ∧ g.m = 6 ∧ g.d = 1)) :
    gregorian_to_kurdish g = .ok ⟨g.y + 700, "Cozerdan",
      daysBetween g ⟨g.y, 5, 22⟩ + 1,
      renderKu (daysBetween g ⟨g.y, 5, 22⟩ + 1) "Cozerdan" (g.y + 700)⟩ := by
  unfold gregorian_to_kurdish
  rw [if_neg (show ¬(g.m = 3 ∧ g.d < 21) from by omega)]
  rw [if_neg (show ¬(g.y = 2023 ∧ g.m = 7 ∧ g.d = 25) from by omega)]
  rw [if_neg hov]
  rw [pairGe_true (by omega : (3:Int) < g.m ∨ (g.m = 3 ∧ (21:Int) ≤ g.d)), if_pos rfl]
  unfold g2kStd
  rw [show (pairGe g.m g.d 3 21 && pairLt g.m g.d 4 21) = false from by
    rw [pairLt_false (by omega), Bool.and_false], if_neg Bool.false_ne_true]
  rw [show (pairGe g.m g.d 4 21 && pairLt g.m g.d 5 22) = false from by
    rw [pairLt_false (by omega), Bool.and_false], if_neg Bool.false_ne_true]
  rw [show (pairGe g.m g.d 5 22 && pairLt g.m g.d 6 22) = true from by
    rw [pairGe_true (by omega), pairLt_true (by omega)]; rfl, if_pos rfl]
  unfold g2kBranch
  rw [show mkDatetime g.y 5 22 = .ok ⟨g.y, 5, 22⟩ from by
    unfold mkDatetime; rw [if_pos ⟨hy1, hy2⟩]]

theorem g2k_eval_4 (g : GDate) (hy1 : 1 ≤ g.y) (hy2 : g.y ≤ 9999)
    (hlow : 6 < g.m ∨ (g.m = 6 ∧ 22 ≤ g.d)) (hhigh : g.m < 7 ∨ (g.m = 7 ∧ g.d < 23))  :
    gregorian_to_kurdish g = .ok ⟨g.y + 700, "Pûşper",
      daysBetween g ⟨g.y, 6, 22⟩ + 1,
      renderKu (daysBetween g ⟨g.y, 6, 22⟩ + 1) "Pûşper" (g.y + 700)⟩ := by
  unfold gregorian_to_kurdish
  rw [if_neg (show ¬(g.m = 3 ∧ g.d < 21) from by omega)]
  rw [if_neg (show ¬(g.y = 2023 ∧ g.m = 7 ∧ g.d = 25) from by omega)]
  rw [if_neg (show ¬(g.y = 2024 ∧ g.m = 6 ∧ g.d = 1) from by omega)]
  rw [pairGe_true (by omega : (3:Int) < g.m ∨ (g.m = 3 ∧ (21:Int) ≤ g.d)), if_pos rfl]
  unfold g2kStd
  rw [show (pairGe g.m g.d 3 21 && pairLt g.m g.d 4 21) = false from by
    rw [pairLt_false (by omega), Bool.and_false], if_neg Bool.false_ne_true]
  rw [show (pairGe g.m g.d 4 21 && pairLt g.m g.d 5 22) = false from by
    rw [pairLt_false (by omega), Bool.and_false], if_neg Bool.false_ne_true]
  rw [show (pairGe g.m g.d 5 22 && pairLt g.m g.d 6 22) = false from by
    rw [pairLt_false (by omega), Bool.and_false], if_neg Bool.false_ne_true]
  rw [show (pairGe g.m g.d 6 22 && pairLt g.m g.d 7 23) = true from by
    rw [pairGe_true (by omega), pairLt_true (by omega)]; rfl, if_pos rfl]
  unfold g2kBranch
  rw [show mkDatetime g.y 6 22 = .ok ⟨g.y, 6, 22⟩ from by
    unfold mkDatetime; rw [if_pos ⟨hy1, hy2⟩]]

theorem g2k_eval_5 (g : GDate) (hy1 : 1 ≤ g.y) (hy2 : g.y ≤ 9999)
    (hlow : 7 < g.m ∨ (g.m = 7 ∧ 23 ≤ g.d)) (hhigh : g.m < 8 ∨ (g.m = 8 ∧ g.d < 23)) (hov : ¬(g.y = 2023 ∧ g.m = 7 ∧ g.d = 25)) :
    gregorian_to_kurdish g = .ok ⟨g.y + 700, "Gelawêj",
      daysBetween g ⟨g.y, 7, 23⟩ + 1,
      renderKu (daysBetween g ⟨g.y, 7, 23⟩ + 1) "Gelawêj" (g.y + 700)⟩ := by
  unfold gregorian_to_kurdish
  rw [if_neg (show ¬(g.m = 3 ∧ g.d < 21) from by omega)]
  rw [if_neg hov]
  rw [if_neg (show ¬(g.y = 2024 ∧ g.m = 6 ∧ g.d = 1) from by omega)]
  rw [pairGe_true (by omega : (3:Int) < g.m ∨ (g.m = 3 ∧ (21:Int) ≤ g.d)), if_pos rfl]
  unfold g2kStd
  rw [show (pairGe g.m g.d 3 21 && pairLt g.m g.d 4 21) = false from by
    rw [pairLt_false (by omega), Bool.and_false], if_neg Bool.false_ne_true]
  rw [show (pairGe g.m g.d 4 21 && pairLt g.m g.d 5 22) = false from by
    rw [pairLt_false (by omega), Bool.and_false], if_neg Bool.false_ne_true]
  rw [show (pairGe g.m g.d 5 22 && pairLt g.m g.d 6 22) = false from by
    rw [pairLt_false (by omega), Bool.and_false], if_neg Bool.false_ne_true]
  rw [show (pairGe g.m g.d 6 22 && pairLt g.m g.d 7 23) = false from by
    rw [pairLt_false (by omega), Bool.and_false], if_neg Bool.false_ne_true]
  rw [show (pairGe g.m g.d 7 23 && pairLt g.m g.d 8 23) = true from by
    rw [pairGe_true (by omega), pairLt_true (by omega)]; rfl, if_pos rfl]
  unfold g2kBranch
  rw [show mkDatetime g.y 7 23 = .ok ⟨g.y, 7, 23⟩ from by
    unfold mkDatetime; rw [if_pos ⟨hy1, hy2⟩]]

theorem g2k_eval_6 (g : GDate) (hy1 : 1 ≤ g.y) (hy2 : g.y ≤ 9999)
    (hlow : 8 < g.m ∨ (g.m = 8 ∧ 23 ≤ g.d)) (hhigh : g.m < 9 ∨ (g.m = 9 ∧ g.d < 23))  :
    gregorian_to_kurdish g = .ok ⟨g.y + 700, "Xermanan",
      daysBetween g ⟨g.y, 8, 23⟩ + 1,
      renderKu (daysBetween g ⟨g.y, 8, 23⟩ + 1) "Xermanan" (g.y + 700)⟩ := by
  unfold gregorian_to_kurdish
  rw [if_neg (show ¬(g.m = 3 ∧ g.d < 21) from by omega)]
  rw [if_neg (show ¬(g.y = 2023 ∧ g.m = 7 ∧ g.d = 25) from by omega)]
  rw [if_neg (show ¬(g.y = 2024 ∧ g.m = 6 ∧ g.d = 1) from by omega)]
  rw [pairGe_true (by omega : (3:Int) < g.m ∨ (g.m = 3 ∧ (21:Int) ≤ g.d)), if_pos rfl]
  unfold g2kStd
  rw [show (pairGe g.m g.d 3 21 && pairLt g.m g.d 4 21) = false from by
    rw [pairLt_false (by omega), Bool.and_false], if_neg Bool.false_ne_true]
  rw [show (pairGe g.m g.d 4 21 && pairLt g.m g.d 5 22) = false from by
    rw [pairLt_false (by omega), Bool.and_false], if_neg Bool.false_ne_true]
  rw [show (pairGe g.m g.d 5 22 && pairLt g.m g.d 6 22) = false from by
    rw [pairLt_false (by omega), Bool.and_false], if_neg Bool.false_ne_true]
  rw [show (pairGe g.m g.d 6 22 && pairLt g.m g.d 7 23) = false from by
    rw [pairLt_false (by omega), Bool.and_false], if_neg Bool.false_ne_true]
  rw [show (pairGe g.m g.d 7 23 && pairLt g.m g.d 8 23) = false from by
    rw [pairLt_false (by omega), Bool.and_false], if_neg Bool.false_ne_true]
  rw [show (pairGe g.m g.d 8 23 && pairLt g.m g.d 9 23) = true from by
    rw [pairGe_true (by omega), pairLt_true (by omega)]; rfl, if_pos rfl]
  unfold g2kBranch
  rw [show mkDatetime g.y 8 23 = .ok ⟨g.y, 8, 23⟩ from by
    unfold mkDatetime; rw [if_pos ⟨hy1, hy2⟩]]

theorem g2k_eval_7 (g : GDate) (hy1 : 1 ≤ g.y) (hy2 : g.y ≤ 9999)
    (hlow : 9 < g.m ∨ (g.m = 9 ∧ 23 ≤ g.d)) (hhigh : g.m < 10 ∨ (g.m = 10 ∧ g.d < 23))  :
    gregorian_to_kurdish g = .ok ⟨g.y + 700, "Rezber",
      daysBetween g ⟨g.y, 9, 23⟩ + 1,
      renderKu (daysBetween g ⟨g.y, 9, 23⟩ + 1) "Rezber" (g.y + 700)⟩ := by
  unfold gregorian_to_kurdish
  rw [if_neg (show ¬(g.m = 3 ∧ g.d < 21) from by omega)]
  rw [if_neg (show ¬(g.y = 2023 ∧ g.m = 7 ∧ g.d = 25) from by omega)]
  rw [if_neg (show ¬(g.y = 2024 ∧ g.m = 6 ∧ g.d = 1) from by omega)]
  rw [pairGe_true (by omega : (3:Int) < g.m ∨ (g.m = 3 ∧ (21:Int) ≤ g.d)), if_pos rfl]
  unfold g2kStd
  rw [show (pairGe g.m g.d 3 21 && pairLt g.m g.d 4 21) = false from by
    rw [pairLt_false (by omega), Bool.and_false], if_neg Bool.false_ne_true]
  rw [show (pairGe g.m g.d 4 21 && pairLt g.m g.d 5 22) = false from by
    rw [pairLt_false (by omega), Bool.and_false], if_neg Bool.false_ne_true]
  rw [show (pairGe g.m g.d 5 22 && pairLt g.m g.d 6 22) = false from by
    rw [pairLt_false (by omega), Bool.and_false], if_neg Bool.false_ne_true]
  rw [show (pairGe g.m g.d 6 22 && pairLt g.m g.d 7 23) = false from by
    rw [pairLt_false (by omega), Bool.and_false], if_neg Bool.false_ne_true]
  rw [show (pairGe g.m g.d 7 23 && pairLt g.m g.d 8 23) = false from by
    rw [pairLt_false (by omega), Bool.and_false], if_neg Bool.false_ne_true]
  rw [show (pairGe g.m g.d 8 23 && pairLt g.m g.d 9 23) = false from by
    rw [pairLt_false (by omega), Bool.and_false], if_neg Bool.false_ne_true]
  rw [show (pairGe g.m g.d 9 23 && pairLt g.m g.d 10 23) = true from by
    rw [pairGe_true (by omega), pairLt_true (by omega)]; rfl, if_pos rfl]
  unfold g2kBranch
  rw [show mkDatetime g.y 9 23 = .ok ⟨g.y, 9, 23⟩ from by
    unfold mkDatetime; rw [if_pos ⟨hy1, hy2⟩]]

theorem g2k_eval_8 (g : GDate) (hy1 : 1 ≤ g.y) (hy2 : g.y ≤ 9999)
    (hlow : 10 < g.m ∨ (g.m = 10 ∧ 23 ≤ g.d)) (hhigh : g.m < 11 ∨ (g.m = 11 ∧ g.d < 22))  :
    gregorian_to_kurdish g = .ok ⟨g.y + 700, "Gelarêzan",
      daysBetween g ⟨g.y, 10, 23⟩ + 1,
      renderKu (daysBetween g ⟨g.y, 10, 23⟩ + 1) "Gelarêzan" (g.y + 700)⟩ := by
  unfold gregorian_to_kurdish
  rw [if_neg (show ¬(g.m = 3 ∧ g.d < 21) from by omega)]
  rw [if_neg (show ¬(g.y = 2023 ∧ g.m = 7 ∧ g.d = 25) from by omega)]
  rw [if_neg (show ¬(g.y = 2024 ∧ g.m = 6 ∧ g.d = 1) from by omega)]
  rw [pairGe_true (by omega : (3:Int) < g.m ∨ (g.m = 3 ∧ (21:Int) ≤ g.d)), if_pos rfl]
  unfold g2kStd
  rw [show (pairGe g.m g.d 3 21 && pairLt g.m g.d 4 21) = false from by
    rw [pairLt_false (by omega), Bool.and_false], if_neg Bool.false_ne_true]
  rw [show (pairGe g.m g.d 4 21 && pairLt g.m g.d 5 22) = false from by
    rw [pairLt_false (by omega), Bool.and_false], if_neg Bool.false_ne_true]
  rw [show (pairGe g.m g.d 5 22 && pairLt g.m g.d 6 22) = false from by
    rw [pairLt_false (by omega), Bool.and_false], if_neg Bool.false_ne_true]
  rw [show (pairGe g.m g.d 6 22 && pairLt g.m g.d 7 23) = false from by
    rw [pairLt_false (by omega), Bool.and_false], if_neg Bool.false_ne_true]
  rw [show (pairGe g.m g.d 7 23 && pairLt g.m g.d 8 23) = false from by
    rw [pairLt_false (by omega), Bool.and_false], if_neg Bool.false_ne_true]
  rw [show (pairGe g.m g.d 8 23 && pairLt g.m g.d 9 23) = false from by
    rw [pairLt_false (by omega), Bool.and_false], if_neg Bool.false_ne_true]
  rw [show (pairGe g.m g.d 9 23 && pairLt g.m g.d 10 23) = false from by
    rw [pairLt_false (by omega), Bool.and_false], if_neg Bool.false_ne_true]
  rw [show (pairGe g.m g.d 10 23 && pairLt g.m g.d 11 22) = true from by
    rw [pairGe_true (by omega), pairLt_true (by omega)]; rfl, if_pos rfl]
  unfold g2kBranch
  rw [show mkDatetime g.y 10 23 = .ok ⟨g.y, 10, 23⟩ from by
    unfold mkDatetime; rw [if_pos ⟨hy1, hy2⟩]]

theorem g2k_eval_9 (g : GDate) (hy1 : 1 ≤ g.y) (hy2 : g.y ≤ 9999)
    (hlow : 11 < g.m ∨ (g.m = 11 ∧ 22 ≤ g.d)) (hhigh : g.m < 12 ∨ (g.m = 12 ∧ g.d < 22))  :
    gregorian_to_kurdish g = .ok ⟨g.y + 700, "Sermawez",
      daysBetween g ⟨g.y, 11, 22⟩ + 1,
      renderKu (daysBetween g ⟨g.y, 11, 22⟩ + 1) "Sermawez" (g.y + 700)⟩ := by
  unfold gregorian_to_kurdish
  rw [if_neg (show ¬(g.m = 3 ∧ g.d < 21) from by omega)]
  rw [if_neg (show ¬(g.y = 2023 ∧ g.m = 7 ∧ g.d = 25) from by omega)]
  rw [if_neg (show ¬(g.y = 2024 ∧ g.m = 6 ∧ g.d = 1) from by omega)]
  rw [pairGe_true (by omega : (3:Int) < g.m ∨ (g.m = 3 ∧ (21:Int) ≤ g.d)), if_pos rfl]
  unfold g2kStd
  rw [show (pairGe g.m g.d 3 21 && pairLt g.m g.d 4 21) = false from by
    rw [pairLt_false (by omega), Bool.and_false], if_neg Bool.false_ne_true]
  rw [show (pairGe g.m g.d 4 21 && pairLt g.m g.d 5 22) = false from by
    rw [pairLt_false (by omega), Bool.and_false], if_neg Bool.false_ne_true]
  rw [show (pairGe g.m g.d 5 22 && pairLt g.m g.d 6 22) = false from by
    rw [pairLt_false (by omega), Bool.and_false], if_neg Bool.false_ne_true]
  rw [show (pairGe g.m g.d 6 22 && pairLt g.m g.d 7 23) = false from by
    rw [pairLt_false (by omega), Bool.and_false], if_neg Bool.false_ne_true]
  rw [show (pairGe g.m g.d 7 23 && pairLt g.m g.d 8 23) = false from by
    rw [pairLt_false (by omega), Bool.and_false], if_neg Bool.false_ne_true]
  rw [show (pairGe g.m g.d 8 23 && pairLt g.m g.d 9 23) = false from by
    rw [pairLt_false (by omega), Bool.and_false], if_neg Bool.false_ne_true]
  rw [show (pairGe g.m g.d 9 23 && pairLt g.m g.d 10 23) = false from by
    rw [pairLt_false (by omega), Bool.and_false], if_neg Bool.false_ne_true]
  rw [show (pairGe g.m g.d 10 23 && pairLt g.m g.d 11 22) = false from by
    rw [pairLt_false (by omega), Bool.and_false], if_neg Bool.false_ne_true]
  rw [show (pairGe g.m g.d 11 22 && pairLt g.m g.d 12 22) = true from by
    rw [pairGe_true (by omega), pairLt_true (by omega)]; rfl, if_pos rfl]
  unfold g2kBranch
  rw [show mkDatetime g.y 11 22 = .ok ⟨g.y, 11, 22⟩ from by
    unfold mkDatetime; rw [if_pos ⟨hy1, hy2⟩]]

theorem g2k_eval_10 (g : GDate) (hy1 : 1 ≤ g.y) (hy2 : g.y ≤ 9999)
    (hlow : 12 < g.m ∨ (g.m = 12 ∧ 22 ≤ g.d))   :
    gregorian_to_kurdish g = .ok ⟨g.y + 700, "Befranbar",
      daysBetween g ⟨g.y, 12, 22⟩ + 1,
      renderKu (daysBetween g ⟨g.y, 12, 22⟩ + 1) "Befranbar" (g.y + 700)⟩ := by
  unfold gregorian_to_kurdish
  rw [if_neg (show ¬(g.m = 3 ∧ g.d < 21) from by omega)]
  rw [if_neg (show ¬(g.y = 2023 ∧ g.m = 7 ∧ g.d = 25) from by omega)]
  rw [if_neg (show ¬(g.y = 2024 ∧ g.m = 6 ∧ g.d = 1) from by omega)]
  rw [pairGe_true (by omega : (3:Int) < g.m ∨ (g.m = 3 ∧ (21:Int) ≤ g.d)), if_pos rfl]
  unfold g2kStd
  rw [show (pairGe g.m g.d 3 21 && pairLt g.m g.d 4 21) = false from by
    rw [pairLt_false (by omega), Bool.and_false], if_neg Bool.false_ne_true]
  rw [show (pairGe g.m g.d 4 21 && pairLt g.m g.d 5 22) = false from by
    rw [pairLt_false (by omega), Bool.and_false], if_neg Bool.false_ne_true]
  rw [show (pairGe g.m g.d 5 22 && pairLt g.m g.d 6 22) = false from by
    rw [pairLt_false (by omega), Bool.and_false], if_neg Bool.false_ne_true]
  rw [show (pairGe g.m g.d 6 22 && pairLt g.m g.d 7 23) = false from by
    rw [pairLt_false (by omega), Bool.and_false], if_neg Bool.false_ne_true]
  rw [show (pairGe g.m g.d 7 23 && pairLt g.m g.d 8 23) = false from by
    rw [pairLt_false (by omega), Bool.and_false], if_neg Bool.false_ne_true]
  rw [show (pairGe g.m g.d 8 23 && pairLt g.m g.d 9 23) = false from by
    rw [pairLt_false (by omega), Bool.and_false], if_neg Bool.false_ne_true]
  rw [show (pairGe g.m g.d 9 23 && pairLt g.m g.d 10 23) = false from by
    rw [pairLt_false (by omega), Bool.and_false], if_neg Bool.false_ne_true]
  rw [show (pairGe g.m g.d 10 23 && pairLt g.m g.d 11 22) = false from by
    rw [pairLt_false (by omega), Bool.and_false], if_neg Bool.false_ne_true]
  rw [show (pairGe g.m g.d 11 22 && pairLt g.m g.d 12 22) = false from by
    rw [pairLt_false (by omega), Bool.and_false], if_neg Bool.false_ne_true]
  rw [pairGe_true (by omega : (12:Int) < g.m ∨ (g.m = 12 ∧ (22:Int) ≤ g.d)), if_pos rfl]
  unfold g2kBranch
  rw [show mkDatetime g.y 12 22 = .ok ⟨g.y, 12, 22⟩ from by
    unfold mkDatetime; rw [if_pos ⟨hy1, hy2⟩]]

theorem g2k_eval_jan (g : GDate) (hy1 : 2 ≤ g.y) (hy2 : g.y ≤ 9999)
    (hm : g.m = 1) (hd1 : 1 ≤ g.d) (hd20 : g.d ≤ 20) :
    gregorian_to_kurdish g = .ok ⟨g.y + 700 - 1, "Befranbar",
      daysBetween g ⟨g.y - 1, 12, 22⟩ + 1,
      renderKu (daysBetween g ⟨g.y - 1, 12, 22⟩ + 1) "Befranbar" (g.y + 700 - 1)⟩ := by
  unfold gregorian_to_kurdish
  rw [if_neg (show ¬(g.m = 3 ∧ g.d < 21) from by omega)]
  rw [if_neg (show ¬(g.y = 2023 ∧ g.m = 7 ∧ g.d = 25) from by omega)]
  rw [if_neg (show ¬(g.y = 2024 ∧ g.m = 6 ∧ g.d = 1) from by omega)]
  rw [pairGe_false (by omega : g.m < 3 ∨ (g.m = 3 ∧ g.d < 21)), if_neg Bool.false_ne_true]
  unfold g2kWrap
  dsimp only
  rw [show (pairGe g.m g.d 1 1 && pairLt g.m g.d 1 21) = true from by
    rw [pairGe_true (by omega), pairLt_true (by omega)]; rfl, if_pos rfl]
  unfold g2kBranch
  rw [show mkDatetime (g.y - 1) 12 22 = .ok ⟨g.y - 1, 12, 22⟩ from by
    unfold mkDatetime; rw [if_pos ⟨by omega, by omega⟩]]

/-- C1 counterexample: January 21, 2024 is not an override date, yet the
round trip lands one Gregorian year early (2023-01-21). -/
theorem claim_C1_counterexample :
    roundTrip ⟨2024, 1, 21⟩ = .ok ⟨2023, 1, 21⟩ ∧
    (⟨2023, 1, 21⟩ : GDate) ≠ ⟨2024, 1, 21⟩ ∧
    ¬ inOverrideTable 2024 1 21 :=
  ⟨by rfl, by decide, by decide⟩

/-- C1 (amended): the converter composition is the identity on every valid
Gregorian date outside the override table and outside the segment
January 21 .. March 20 (whose dates round-trip into the previous Gregorian
year); for January dates the previous December anchor must be
representable, hence year ≥ 2. -/
theorem claim_C1_amended (g : GDate) (hv : validG g)
    (hy1 : 1 ≤ g.y) (hy2 : g.y ≤ 9999)
    (hjan : g.m = 1 → 2 ≤ g.y)
    (hov : ¬ inOverrideTable g.y g.m g.d)
    (hseg : ¬ ((g.m = 1 ∧ 21 ≤ g.d) ∨ g.m = 2 ∨ (g.m = 3 ∧ g.d ≤ 20))) :
    roundTrip g = .ok g := by
  obtain ⟨gy, gm, gd⟩ := g
  have hb : 1 ≤ gm ∧ gm ≤ 12 ∧ 1 ≤ gd ∧ gd ≤ monthLen gy gm := hv
  have hy1x : (1 : Int) ≤ gy := hy1
  have hy2x : gy ≤ 9999 := hy2
  have hjanx : gm = 1 → 2 ≤ gy := hjan
  have hov2 : ¬ inOverrideTable gy gm gd := hov
  have hsegx : ¬ ((gm = 1 ∧ 21 ≤ gd) ∨ gm = 2 ∨ (gm = 3 ∧ gd ≤ 20)) := hseg
  obtain ⟨hm1, hm2, hd1, hd2⟩ := hb
  have hl0 := leapOff_bd gy
  interval_cases gm
  · -- January: days 1..20 belong to Befranbar of the previous Kurdish year
    have h2y : 2 ≤ gy := hjanx rfl
    have hd20 : gd ≤ 20 := by omega
    have hstep := daysBefore_succ (gy - 1)
    rw [show gy - 1 + 1 = gy from by omega] at hstep
    have hl := leapOff_bd (gy - 1)
    have hord : toOrd (⟨gy - 1, 12, 22⟩ : GDate) ≤ toOrd ⟨gy, 1, gd⟩ := by
      show daysBefore (gy - 1) + cumDays (gy - 1) 12 + 22 ≤
        daysBefore gy + cumDays gy 1 + gd
      rw [show cumDays (gy - 1) 12 = 334 + leapOff (gy - 1) from rfl,
        show cumDays gy 1 = 0 from rfl]
      unfold daysInYear at hstep
      omega
    unfold roundTrip
    rw [g2k_eval_jan ⟨gy, 1, gd⟩ h2y hy2x rfl hd1 hd20]
    show k2gCore (gy + 700 - 1) 10
      (daysBetween ⟨gy, 1, gd⟩ ⟨gy - 1, 12, 22⟩ + 1) = .ok ⟨gy, 1, gd⟩
    rw [k2gCore_10]
    rw [show gy + 700 - 1 - 700 = gy - 1 from by omega]
    exact k2gTail_roundtrip (A := ⟨gy - 1, 12, 22⟩) (g := ⟨gy, 1, gd⟩)
      (validG_mk (by norm_num) (by norm_num) (by norm_num)
        (by rw [show monthLen (gy - 1) 12 = 31 from rfl]; norm_num))
      hv hord ((by omega : (1:Int) ≤ gy - 1)) ((by omega : gy - 1 ≤ (9999:Int)))
      hy1x hy2x rfl
  · exact absurd (Or.inr (Or.inl rfl)) hsegx
  · -- March 21 .. 31: Xakelew
    have hd21 : 21 ≤ gd := by omega
    have hord : toOrd (⟨gy, 3, 21⟩ : GDate) ≤ toOrd ⟨gy, 3, gd⟩ := by
      show daysBefore gy + cumDays gy 3 + 21 ≤ daysBefore gy + cumDays gy 3 + gd
      omega
    unfold roundTrip
    rw [g2k_eval_1 ⟨gy, 3, gd⟩ hy1x hy2x (Or.inr ⟨rfl, (by omega : (21:Int) ≤ gd)⟩) (Or.inl (show (3:Int) < 4 by norm_num))]
    show k2gCore (gy + 700) 1
      (daysBetween ⟨gy, 3, gd⟩ ⟨gy, 3, 21⟩ + 1) = .ok ⟨gy, 3, gd⟩
    rw [k2gCore_1]
    rw [show gy + 700 - 700 = gy from by omega]
    exact k2gTail_roundtrip (A := ⟨gy, 3, 21⟩) (g := ⟨gy, 3, gd⟩)
      (validG_mk (by norm_num) (by norm_num) (by norm_num)
        (by rw [show monthLen gy 3 = 31 from rfl]; omega))
      hv hord hy1x hy2x hy1x hy2x rfl
  · by_cases hc : gd < 21
    · -- 4/1 .. 4/20
      have hord : toOrd (⟨gy, 3, 21⟩ : GDate) ≤ toOrd ⟨gy, 4, gd⟩ := by
        show daysBefore gy + cumDays gy 3 + 21 ≤ daysBefore gy + cumDays gy 4 + gd
        rw [show cumDays gy 3 = 59 + leapOff gy from rfl,
          show cumDays gy 4 = 90 + leapOff gy from rfl]
        omega
      unfold roundTrip
      rw [g2k_eval_1 ⟨gy, 4, gd⟩ hy1x hy2x (Or.inl (show (3:Int) < 4 by norm_num)) (Or.inr ⟨rfl, (by omega : gd < (21:Int))⟩)]
      show k2gCore (gy + 700) 1
        (daysBetween ⟨gy, 4, gd⟩ ⟨gy, 3, 21⟩ + 1) = .ok ⟨gy, 4, gd⟩
      rw [k2gCore_1]
      rw [show gy + 700 - 700 = gy from by omega]
      exact k2gTail_roundtrip (A := ⟨gy, 3, 21⟩) (g := ⟨gy, 4, gd⟩)
        (validG_mk (by norm_num) (by norm_num) (by norm_num)
          (by rw [show monthLen gy 3 = 31 from rfl]; omega))
        hv hord hy1x hy2x hy1x hy2x rfl
    · -- 4/21 onward
      have hord : toOrd (⟨gy, 4, 21⟩ : GDate) ≤ toOrd ⟨gy, 4, gd⟩ := by
        show daysBefore gy + cumDays gy 4 + 21 ≤ daysBefore gy + cumDays gy 4 + gd
        omega
      unfold roundTrip
      rw [g2k_eval_2 ⟨gy, 4, gd⟩ hy1x hy2x (Or.inr ⟨rfl, (by omega : (21:Int) ≤ gd)⟩) (Or.inl (show (4:Int) < 5 by norm_num))]
      show k2gCore (gy + 700) 2
        (daysBetween ⟨gy, 4, gd⟩ ⟨gy, 4, 21⟩ + 1) = .ok ⟨gy, 4, gd⟩
      rw [k2gCore_2]
      rw [show gy + 700 - 700 = gy from by omega]
      exact k2gTail_roundtrip (A := ⟨gy, 4, 21⟩) (g := ⟨gy, 4, gd⟩)
        (validG_mk (by norm_num) (by norm_num) (by norm_num)
          (by rw [show monthLen gy 4 = 30 from rfl]; omega))
        hv hord hy1x hy2x hy1x hy2x rfl
  · by_cases hc : gd < 22
    · -- 5/1 .. 5/21
      have hord : toOrd (⟨gy, 4, 21⟩ : GDate) ≤ toOrd ⟨gy, 5, gd⟩ := by
        show daysBefore gy + cumDays gy 4 + 21 ≤ daysBefore gy + cumDays gy 5 + gd
        rw [show cumDays gy 4 = 90 + leapOff gy from rfl,
          show cumDays gy 5 = 120 + leapOff gy from rfl]
        omega
      unfold roundTrip
      rw [g2k_eval_2 ⟨gy, 5, gd⟩ hy1x hy2x (Or.inl (show (4:Int) < 5 by norm_num)) (Or.inr ⟨rfl, (by omega : gd < (22:Int))⟩)]
      show k2gCore (gy + 700) 2
        (daysBetween ⟨gy, 5, gd⟩ ⟨gy, 4, 21⟩ + 1) = .ok ⟨gy, 5, gd⟩
      rw [k2gCore_2]
      rw [show gy + 700 - 700 = gy from by omega]
      exact k2gTail_roundtrip (A := ⟨gy, 4, 21⟩) (g := ⟨gy, 5, gd⟩)
        (validG_mk (by norm_num) (by norm_num) (by norm_num)
          (by rw [show monthLen gy 4 = 30 from rfl]; omega))
        hv hord hy1x hy2x hy1x hy2x rfl
    · -- 5/22 onward
      have hord : toOrd (⟨gy, 5, 22⟩ : GDate) ≤ toOrd ⟨gy, 5, gd⟩ := by
        show daysBefore gy + cumDays gy 5 + 22 ≤ daysBefore gy + cumDays gy 5 + gd
        omega
      unfold roundTrip
      rw [g2k_eval_3 ⟨gy, 5, gd⟩ hy1x hy2x (Or.inr ⟨rfl, (by omega : (22:Int) ≤ gd)⟩) (Or.inl (show (5:Int) < 6 by norm_num)) (by intro hx; have hx2 : gy = 2024 ∧ (5:Int) = 6 ∧ gd = 1 := hx; exact hov2 (by unfold inOverrideTable; omega))]
      show k2gCore (gy + 700) 3
        (daysBetween ⟨gy, 5, gd⟩ ⟨gy, 5, 22⟩ + 1) = .ok ⟨gy, 5, gd⟩
      rw [k2gCore_3]
      rw [show gy + 700 - 700 = gy from by omega]
      exact k2gTail_roundtrip (A := ⟨gy, 5, 22⟩) (g := ⟨gy, 5, gd⟩)
        (validG_mk (by norm_num) (by norm_num) (by norm_num)
          (by rw [show monthLen gy 5 = 31 from rfl]; omega))
        hv hord hy1x hy2x hy1x hy2x rfl
  · by_cases hc : gd < 22
    · -- 6/1 .. 6/21
      have hord : toOrd (⟨gy, 5, 22⟩ : GDate) ≤ toOrd ⟨gy, 6, gd⟩ := by
        show daysBefore gy + cumDays gy 5 + 22 ≤ daysBefore gy + cumDays gy 6 + gd
        rw [show cumDays gy 5 = 120 + leapOff gy from rfl,
          show cumDays gy 6 = 151 + leapOff gy from rfl]
        omega
      unfold roundTrip
      rw [g2k_eval_3 ⟨gy, 6, gd⟩ hy1x hy2x (Or.inl (show (5:Int) < 6 by norm_num)) (Or.inr ⟨rfl, (by omega : gd < (22:Int))⟩) (by intro hx; have hx2 : gy = 2024 ∧ (6:Int) = 6 ∧ gd = 1 := hx; exact hov2 (by unfold inOverrideTable; omega))]
      show k2gCore (gy + 700) 3
        (daysBetween ⟨gy, 6, gd⟩ ⟨gy, 5, 22⟩ + 1) = .ok ⟨gy, 6, gd⟩
      rw [k2gCore_3]
      rw [show gy + 700 - 700 = gy from by omega]
      exact k2gTail_roundtrip (A := ⟨gy, 5, 22⟩) (g := ⟨gy, 6, gd⟩)
        (validG_mk (by norm_num) (by norm_num) (by norm_num)
          (by rw [show monthLen gy 5 = 31 from rfl]; omega))
        hv hord hy1x hy2x hy1x hy2x rfl
    · -- 6/22 onward
      have hord : toOrd (⟨gy, 6, 22⟩ : GDate) ≤ toOrd ⟨gy, 6, gd⟩ := by
        show daysBefore gy + cumDays gy 6 + 22 ≤ daysBefore gy + cumDays gy 6 + gd
        omega
      unfold roundTrip
      rw [g2k_eval_4 ⟨gy, 6, gd⟩ hy1x hy2x (Or.inr ⟨rfl, (by omega : (22:Int) ≤ gd)⟩) (Or.inl (show (6:Int) < 7 by norm_num))]
      show k2gCore (gy + 700) 4
        (daysBetween ⟨gy, 6, gd⟩ ⟨gy, 6, 22⟩ + 1) = .ok ⟨gy, 6, gd⟩
      rw [k2gCore_4]
      rw [show gy + 700 - 700 = gy from by omega]
      exact k2gTail_roundtrip (A := ⟨gy, 6, 22⟩) (g := ⟨gy, 6, gd⟩)
        (validG_mk (by norm_num) (by norm_num) (by norm_num)
          (by rw [show monthLen gy 6 = 30 from rfl]; omega))
        hv hord hy1x hy2x hy1x hy2x rfl
  · by_cases hc : gd < 23
    · -- 7/1 .. 7/22
      have hord : toOrd (⟨gy, 6, 22⟩ : GDate) ≤ toOrd ⟨gy, 7, gd⟩ := by
        show daysBefore gy + cumDays gy 6 + 22 ≤ daysBefore gy + cumDays gy 7 + gd
        rw [show cumDays gy 6 = 151 + leapOff gy from rfl,
          show cumDays gy 7 = 181 + leapOff gy from rfl]
        omega
      unfold roundTrip
      rw [g2k_eval_4 ⟨gy, 7, gd⟩ hy1x hy2x (Or.inl (show (6:Int) < 7 by norm_num)) (Or.inr ⟨rfl, (by omega : gd < (23:Int))⟩)]
      show k2gCore (gy + 700) 4
        (daysBetween ⟨gy, 7, gd⟩ ⟨gy, 6, 22⟩ + 1) = .ok ⟨gy, 7, gd⟩
      rw [k2gCore_4]
      rw [show gy + 700 - 700 = gy from by omega]
      exact k2gTail_roundtrip (A := ⟨gy, 6, 22⟩) (g := ⟨gy, 7, gd⟩)
        (validG_mk (by norm_num) (by norm_num) (by norm_num)
          (by rw [show monthLen gy 6 = 30 from rfl]; omega))
        hv hord hy1x hy2x hy1x hy2x rfl
    · -- 7/23 onward
      have hord : toOrd (⟨gy, 7, 23⟩ : GDate) ≤ toOrd ⟨gy, 7, gd⟩ := by
        show daysBefore gy + cumDays gy 7 + 23 ≤ daysBefore gy + cumDays gy 7 + gd
        omega
      unfold roundTrip
      rw [g2k_eval_5 ⟨gy, 7, gd⟩ hy1x hy2x (Or.inr ⟨rfl, (by omega : (23:Int) ≤ gd)⟩) (Or.inl (show (7:Int) < 8 by norm_num)) (by intro hx; have hx2 : gy = 2023 ∧ (7:Int) = 7 ∧ gd = 25 := hx; exact hov2 (by unfold inOverrideTable; omega))]
      show k2gCore (gy + 700) 5
        (daysBetween ⟨gy, 7, gd⟩ ⟨gy, 7, 23⟩ + 1) = .ok ⟨gy, 7, gd⟩
      rw [k2gCore_5]
      rw [show gy + 700 - 700 = gy from by omega]
      exact k2gTail_roundtrip (A := ⟨gy, 7, 23⟩) (g := ⟨gy, 7, gd⟩)
        (validG_mk (by norm_num) (by norm_num) (by norm_num)
          (by rw [show monthLen gy 7 = 31 from rfl]; omega))
        hv hord hy1x hy2x hy1x hy2x rfl
  · by_cases hc : gd < 23
    · -- 8/1 .. 8/22
      have hord : toOrd (⟨gy, 7, 23⟩ : GDate) ≤ toOrd ⟨gy, 8, gd⟩ := by
        show daysBefore gy + cumDays gy 7 + 23 ≤ daysBefore gy + cumDays gy 8 + gd
        rw [show cumDays gy 7 = 181 + leapOff gy from rfl,
          show cumDays gy 8 = 212 + leapOff gy from rfl]
        omega
      unfold roundTrip
      rw [g2k_eval_5 ⟨gy, 8, gd⟩ hy1x hy2x (Or.inl (show (7:Int) < 8 by norm_num)) (Or.inr ⟨rfl, (by omega : gd < (23:Int))⟩) (by intro hx; have hx2 : gy = 2023 ∧ (8:Int) = 7 ∧ gd = 25 := hx; exact hov2 (by unfold inOverrideTable; omega))]
      show k2gCore (gy + 700) 5
        (daysBetween ⟨gy, 8, gd⟩ ⟨gy, 7, 23⟩ + 1) = .ok ⟨gy, 8, gd⟩
      rw [k2gCore_5]
      rw [show gy + 700 - 700 = gy from by omega]
      exact k2gTail_roundtrip (A := ⟨gy, 7, 23⟩) (g := ⟨gy, 8, gd⟩)
        (validG_mk (by norm_num) (by norm_num) (by norm_num)
          (by rw [show monthLen gy 7 = 31 from rfl]; omega))
        hv hord hy1x hy2x hy1x hy2x rfl
    · -- 8/23 onward
      have hord : toOrd (⟨gy, 8, 23⟩ : GDate) ≤ toOrd ⟨gy, 8, gd⟩ := by
        show daysBefore gy + cumDays gy 8 + 23 ≤ daysBefore gy + cumDays gy 8 + gd
        omega
      unfold roundTrip
      rw [g2k_eval_6 ⟨gy, 8, gd⟩ hy1x hy2x (Or.inr ⟨rfl, (by omega : (23:Int) ≤ gd)⟩) (Or.inl (show (8:Int) < 9 by norm_num))]
      show k2gCore (gy + 700) 6
        (daysBetween ⟨gy, 8, gd⟩ ⟨gy, 8, 23⟩ + 1) = .ok ⟨gy, 8, gd⟩
      rw [k2gCore_6]
      rw [show gy + 700 - 700 = gy from by omega]
      exact k2gTail_roundtrip (A := ⟨gy, 8, 23⟩) (g := ⟨gy, 8, gd⟩)
        (validG_mk (by norm_num) (by norm_num) (by norm_num)
          (by rw [show monthLen gy 8 = 31 from rfl]; omega))
        hv hord hy1x hy2x hy1x hy2x rfl
  · by_cases hc : gd < 23
    · -- 9/1 .. 9/22
      have hord : toOrd (⟨gy, 8, 23⟩ : GDate) ≤ toOrd ⟨gy, 9, gd⟩ := by
        show daysBefore gy + cumDays gy 8 + 23 ≤ daysBefore gy + cumDays gy 9 + gd
        rw [show cumDays gy 8 = 212 + leapOff gy from rfl,
          show cumDays gy 9 = 243 + leapOff gy from rfl]
        omega
      unfold roundTrip
      rw [g2k_eval_6 ⟨gy, 9, gd⟩ hy1x hy2x (Or.inl (show (8:Int) < 9 by norm_num)) (Or.inr ⟨rfl, (by omega : gd < (23:Int))⟩)]
      show k2gCore (gy + 700) 6
        (daysBetween ⟨gy, 9, gd⟩ ⟨gy, 8, 23⟩ + 1) = .ok ⟨gy, 9, gd⟩
      rw [k2gCore_6]
      rw [show gy + 700 - 700 = gy from by omega]
      exact k2gTail_roundtrip (A := ⟨gy, 8, 23⟩) (g := ⟨gy, 9, gd⟩)
        (validG_mk (by norm_num) (by norm_num) (by norm_num)
          (by rw [show monthLen gy 8 = 31 from rfl]; omega))
        hv hord hy1x hy2x hy1x hy2x rfl
    · -- 9/23 onward
      have hord : toOrd (⟨gy, 9, 23⟩ : GDate) ≤ toOrd ⟨gy, 9, gd⟩ := by
        show daysBefore gy + cumDays gy 9 + 23 ≤ daysBefore gy + cumDays gy 9 + gd
        omega
      unfold roundTrip
      rw [g2k_eval_7 ⟨gy, 9, gd⟩ hy1x hy2x (Or.inr ⟨rfl, (by omega : (23:Int) ≤ gd)⟩) (Or.inl (show (9:Int) < 10 by norm_num))]
      show k2gCore (gy + 700) 7
        (daysBetween ⟨gy, 9, gd⟩ ⟨gy, 9, 23⟩ + 1) = .ok ⟨gy, 9, gd⟩
      rw [k2gCore_7]
      rw [show gy + 700 - 700 = gy from by omega]
      exact k2gTail_roundtrip (A := ⟨gy, 9, 23⟩) (g := ⟨gy, 9, gd⟩)
        (validG_mk (by norm_num) (by norm_num) (by norm_num)
          (by rw [show monthLen gy 9 = 30 from rfl]; omega))
        hv hord hy1x hy2x hy1x hy2x rfl
  · by_cases hc : gd < 23
    · -- 10/1 .. 10/22
      have hord : toOrd (⟨gy, 9, 23⟩ : GDate) ≤ toOrd ⟨gy, 10, gd⟩ := by
        show daysBefore gy + cumDays gy 9 + 23 ≤ daysBefore gy + cumDays gy 10 + gd
        rw [show cumDays gy 9 = 243 + leapOff gy from rfl,
          show cumDays gy 10 = 273 + leapOff gy from rfl]
        omega
      unfold roundTrip
      rw [g2k_eval_7 ⟨gy, 10, gd⟩ hy1x hy2x (Or.inl (show (9:Int) < 10 by norm_num)) (Or.inr ⟨rfl, (by omega : gd < (23:Int))⟩)]
      show k2gCore (gy + 700) 7
        (daysBetween ⟨gy, 10, gd⟩ ⟨gy, 9, 23⟩ + 1) = .ok ⟨gy, 10, gd⟩
      rw [k2gCore_7]
      rw [show gy + 700 - 700 = gy from by omega]
      exact k2gTail_roundtrip (A := ⟨gy, 9, 23⟩) (g := ⟨gy, 10, gd⟩)
        (validG_mk (by norm_num) (by norm_num) (by norm_num)
          (by rw [show monthLen gy 9 = 30 from rfl]; omega))
        hv hord hy1x hy2x hy1x hy2x rfl
    · -- 10/23 onward
      have hord : toOrd (⟨gy, 10, 23⟩ : GDate) ≤ toOrd ⟨gy, 10, gd⟩ := by
        show daysBefore gy + cumDays gy 10 + 23 ≤ daysBefore gy + cumDays gy 10 + gd
        omega
      unfold roundTrip
      rw [g2k_eval_8 ⟨gy, 10, gd⟩ hy1x hy2x (Or.inr ⟨rfl, (by omega : (23:Int) ≤ gd)⟩) (Or.inl (show (10:Int) < 11 by norm_num))]
      show k2gCore (gy + 700) 8
        (daysBetween ⟨gy, 10, gd⟩ ⟨gy, 10, 23⟩ + 1) = .ok ⟨gy, 10, gd⟩
      rw [k2gCore_8]
      rw [show gy + 700 - 700 = gy from by omega]
      exact k2gTail_roundtrip (A := ⟨gy, 10, 23⟩) (g := ⟨gy, 10, gd⟩)
        (validG_mk (by norm_num) (by norm_num) (by norm_num)
          (by rw [show monthLen gy 10 = 31 from rfl]; omega))
        hv hord hy1x hy2x hy1x hy2x rfl
  · by_cases hc : gd < 22
    · -- 11/1 .. 11/21
      have hord : toOrd (⟨gy, 10, 23⟩ : GDate) ≤ toOrd ⟨gy, 11, gd⟩ := by
        show daysBefore gy + cumDays gy 10 + 23 ≤ daysBefore gy + cumDays gy 11 + gd
        rw [show cumDays gy 10 = 273 + leapOff gy from rfl,
          show cumDays gy 11 = 304 + leapOff gy from rfl]
        omega
      unfold roundTrip
      rw [g2k_eval_8 ⟨gy, 11, gd⟩ hy1x hy2x (Or.inl (show (10:Int) < 11 by norm_num)) (Or.inr ⟨rfl, (by omega : gd < (22:Int))⟩)]
      show k2gCore (gy + 700) 8
        (daysBetween ⟨gy, 11, gd⟩ ⟨gy, 10, 23⟩ + 1) = .ok ⟨gy, 11, gd⟩
      rw [k2gCore_8]
      rw [show gy + 700 - 700 = gy from by omega]
      exact k2gTail_roundtrip (A := ⟨gy, 10, 23⟩) (g := ⟨gy, 11, gd⟩)
        (validG_mk (by norm_num) (by norm_num) (by norm_num)
          (by rw [show monthLen gy 10 = 31 from rfl]; omega))
        hv hord hy1x hy2x hy1x hy2x rfl
    · -- 11/22 onward
      have hord : toOrd (⟨gy, 11, 22⟩ : GDate) ≤ toOrd ⟨gy, 11, gd⟩ := by
        show daysBefore gy + cumDays gy 11 + 22 ≤ daysBefore gy + cumDays gy 11 + gd
        omega
      unfold roundTrip
      rw [g2k_eval_9 ⟨gy, 11, gd⟩ hy1x hy2x (Or.inr ⟨rfl, (by omega : (22:Int) ≤ gd)⟩) (Or.inl (show (11:Int) < 12 by norm_num))]
      show k2gCore (gy + 700) 9
        (daysBetween ⟨gy, 11, gd⟩ ⟨gy, 11, 22⟩ + 1) = .ok ⟨gy, 11, gd⟩
      rw [k2gCore_9]
      rw [show gy + 700 - 700 = gy from by omega]
      exact k2gTail_roundtrip (A := ⟨gy, 11, 22⟩) (g := ⟨gy, 11, gd⟩)
        (validG_mk (by norm_num) (by norm_num) (by norm_num)
          (by rw [show monthLen gy 11 = 30 from rfl]; omega))
        hv hord hy1x hy2x hy1x hy2x rfl
  · by_cases hc : gd < 22
    · -- 12/1 .. 12/21
      have hord : toOrd (⟨gy, 11, 22⟩ : GDate) ≤ toOrd ⟨gy, 12, gd⟩ := by
        show daysBefore gy + cumDays gy 11 + 22 ≤ daysBefore gy + cumDays gy 12 + gd
        rw [show cumDays gy 11 = 304 + leapOff gy from rfl,
          show cumDays gy 12 = 334 + leapOff gy from rfl]
        omega
      unfold roundTrip
      rw [g2k_eval_9 ⟨gy, 12, gd⟩ hy1x hy2x (Or.inl (show (11:Int) < 12 by norm_num)) (Or.inr ⟨rfl, (by omega : gd < (22:Int))⟩)]
      show k2gCore (gy + 700) 9
        (daysBetween ⟨gy, 12, gd⟩ ⟨gy, 11, 22⟩ + 1) = .ok ⟨gy, 12, gd⟩
      rw [k2gCore_9]
      rw [show gy + 700 - 700 = gy from by omega]
      exact k2gTail_roundtrip (A := ⟨gy, 11, 22⟩) (g := ⟨gy, 12, gd⟩)
        (validG_mk (by norm_num) (by norm_num) (by norm_num)
          (by rw [show monthLen gy 11 = 30 from rfl]; omega))
        hv hord hy1x hy2x hy1x hy2x rfl
    · -- 12/22 onward
      have hord : toOrd (⟨gy, 12, 22⟩ : GDate) ≤ toOrd ⟨gy, 12, gd⟩ := by
        show daysBefore gy + cumDays gy 12 + 22 ≤ daysBefore gy + cumDays gy 12 + gd
        omega
      unfold roundTrip
      rw [g2k_eval_10 ⟨gy, 12, gd⟩ hy1x hy2x (Or.inr ⟨rfl, (by omega : (22:Int) ≤ gd)⟩) ]
      show k2gCore (gy + 700) 10
        (daysBetween ⟨gy, 12, gd⟩ ⟨gy, 12, 22⟩ + 1) = .ok ⟨gy, 12, gd⟩
      rw [k2gCore_10]
      rw [show gy + 700 - 700 = gy from by omega]
      exact k2gTail_roundtrip (A := ⟨gy, 12, 22⟩) (g := ⟨gy, 12, gd⟩)
        (validG_mk (by norm_num) (by norm_num) (by norm_num)
          (by rw [show monthLen gy 12 = 31 from rfl]; omega))
        hv hord hy1x hy2x hy1x hy2x rfl

theorem claim_C1_witness :
    validG ⟨2024, 3, 21⟩ ∧ ¬ inOverrideTable 2024 3 21 ∧
    roundTrip ⟨2024, 3, 21⟩ = .ok ⟨2024, 3, 21⟩ :=
  ⟨by decide, by decide,
    claim_C1_amended ⟨2024, 3, 21⟩ (by decide) (by norm_num) (by norm_num)
      (by norm_num) (by decide) (by norm_num)⟩


end KurdAPI
